import Mathlib

/-!
# turntable.cpp: a shallow embedding

The program reads a geometry file, prints a fixed scene header and then one
frame block per animation frame.  The embedding follows `src/turntable.cpp`
function by function.

* A C string is a `String`; each `Char` stands for one `char`.
* `std::cout` and `std::cerr` are the two `String` fields `out` and `err` of
  the program state; `<<` appends, `endl` appends a newline.
* `int` and `unsigned int` are 32 bits wide: `toUnsigned` is the conversion
  `int -> unsigned int`, `toInt32` the wrap of an `int` increment.
* `float` is a type parameter `F`; the library operations on it (`atof`,
  the conversion from `int`, the product, the stream formatting) are the
  fields of `Env`.
* `exit(n)` ends the run with `Outcome.exited n`.
* Loops whose trip count is not bounded by the size of a list take a fuel
  argument and return `none` when it runs out.
-/

set_option maxRecDepth 100000

namespace Turntable

/-! ## Machine integers -/

/-- The constant `UINT_MAX` of `<climits>` for a 32-bit `unsigned int`. -/
def UINT_MAX : Nat := 4294967295

/-- The constant `INT_MAX` of `<climits>` for a 32-bit `int`. -/
def INT_MAX : Int := 2147483647

/-- The constant `INT_MIN` of `<climits>` for a 32-bit `int`. -/
def INT_MIN : Int := -2147483648

/-- Conversion of an `int` to `unsigned int`: the value modulo `2^32`. -/
def toUnsigned (i : Int) : Nat := (i % 4294967296).toNat

/-- Reduction of an integer to the range of a 32-bit two's-complement `int`. -/
def toInt32 (i : Int) : Int := (i + 2147483648) % 4294967296 - 2147483648

/-! ## Library functions -/

/-- The library operations on `float` that the program uses, and the value
`atoi` returns where the C standard leaves it undefined. -/
structure Env (F : Type) where
  /-- Value of `atof(token)` narrowed to `float`. -/
  atof : String → F
  /-- Conversion `int -> float`. -/
  ofInt : Int → F
  /-- Product of two `float` values. -/
  mul : F → F → F
  /-- Text written by `cout << x` for a `float` `x`. -/
  fmt : F → String
  /-- The literal `0.1` narrowed to `float`. -/
  lit_0_1 : F
  /-- What `atoi` yields for a token whose value does not fit an `int`. -/
  atoi_overflow : String → Int

/-- Character `s[i]` of a C string; the terminating NUL past the end. -/
def charAt (s : String) (i : Nat) : Char := s.data.getD i (Char.ofNat 0)

/-- White space skipped by `atoi` (`isspace` in the C locale). -/
def isspace (c : Char) : Bool :=
  c = ' ' || c = '\t' || c = '\n' || c = Char.ofNat 11 || c = Char.ofNat 12 || c = '\r'

/-- Value of the longest run of decimal digits at the head of `cs`,
continuing the accumulator `acc`. -/
def digitsValue : List Char → Nat → Nat
  | [], acc => acc
  | c :: cs, acc =>
    if c.isDigit then digitsValue cs (acc * 10 + (c.toNat - 48)) else acc

/-- The integer denoted by the head of a token, as `atoi` reads it: leading
white space, an optional sign, then decimal digits; `0` when no digit
follows. -/
def atoi_value (s : String) : Int :=
  match s.data.dropWhile isspace with
  | '-' :: cs => -((digitsValue cs 0 : Nat) : Int)
  | '+' :: cs => ((digitsValue cs 0 : Nat) : Int)
  | cs => ((digitsValue cs 0 : Nat) : Int)

/-- The library function `atoi`: `atoi_value` when it fits an `int`, and
otherwise some `int` chosen by the environment. -/
def atoi {F : Type} (env : Env F) (s : String) : Int :=
  if INT_MIN ≤ atoi_value s ∧ atoi_value s ≤ INT_MAX then atoi_value s
  else toInt32 (env.atoi_overflow s)

/-- The library function `toupper` in the C locale. -/
def toupper (c : Char) : Char := c.toUpper

/-! ## Program state -/

/-- The global variables of the program together with its two output
streams. -/
structure State (F : Type) where
  use_axis_lights : Bool
  render_axes : Bool
  axis : Char
  velocity : F
  max_frames : Nat
  out : String
  err : String

/-- Initial values of the globals (lines 34-38) and empty streams. -/
def State.init {F : Type} (env : Env F) : State F :=
  { use_axis_lights := false
    render_axes := false
    axis := 'Z'
    velocity := env.lit_0_1
    max_frames := UINT_MAX
    out := ""
    err := "" }

/-- The statement `cout << s`. -/
def State.cout {F : Type} (st : State F) (s : String) : State F :=
  { st with out := st.out ++ s }

/-- The statement `std::cerr << s`. -/
def State.cerr {F : Type} (st : State F) (s : String) : State F :=
  { st with err := st.err ++ s }

/-- How a function of the program ends: it returns to its caller, or it
calls `exit(status)`. -/
inductive Outcome (F : Type) where
  | returned (st : State F)
  | exited (status : Int) (st : State F)

/-- The final state carried by an outcome. -/
def Outcome.state {F : Type} : Outcome F → State F
  | .returned st => st
  | .exited _ st => st

/-- The exit status of an outcome, when it is an `exit`. -/
def Outcome.status {F : Type} : Outcome F → Option Int
  | .returned _ => none
  | .exited n _ => some n

/-! ## The program -/

/-- The array `header` (lines 40-48). -/
def header : List String :=
  [ "Display  \"animation\" \"Screen\" \"rgbdouble\"",
    "Format 640 480",
    "CameraEye 8 8 -5",
    "CameraAt 0 0 0",
    "CameraUp 0 0 1",
    "CameraFOV 76" ]

/-- The global `n_header` (line 74). -/
def n_header : Nat := header.length

/-- One call of `getline(in_stream, line)` on a good stream whose unread
contents are `s`: the extracted line, the contents left unread, and
whether the stream is still `good()`.  The newline is consumed and not
stored; reaching the end of the file sets `eofbit`. -/
def getline : List Char → List Char × List Char × Bool
  | [] => ([], [], false)
  | c :: cs =>
    if c = '\n' then ([], cs, true)
    else
      let r := getline cs
      (c :: r.1, r.2.1, r.2.2)

/-- The loop `while (in_stream.good())` of `poly_from_file` (lines 59-63);
`ss` is the text collected so far. -/
def read_loop : Nat → List Char → String → Option String
  | 0, _, _ => none
  | fuel + 1, s, ss =>
    let r := getline s
    let ss1 := ss ++ String.mk r.1 ++ "\n"
    if r.2.2 then read_loop fuel r.2.1 ss1 else some ss1

/-- The function `poly_from_file` (lines 50-72).  The file system is the
map `fs` from a path to the contents of the file that opens there. -/
def poly_from_file {F : Type} (fs : String → Option String) (fuel : Nat)
    (path : String) (st : State F) : Option (String × State F) :=
  match fs path with
  | some contents =>
    match read_loop fuel contents.data "" with
    | some ss => some (ss, st)
    | none => none
  | none =>
    some ("", st.cerr ("Failed to open polyfile at " ++ path ++ "!" ++ "\n"))

/-- The function `create_axes` (lines 76-86). -/
def create_axes {F : Type} (st : State F) : State F :=
  let st := st.cout "ObjectBegin \"Axes\"\n"
  let st := st.cout "Color 1 0 0\n"
  let st := st.cout "Line 0 0 0 10 0 0\n"
  let st := st.cout "Color 0 1 0\n"
  let st := st.cout "Line 0 0 0 0 10 0\n"
  let st := st.cout "Color 0 0 1\n"
  let st := st.cout "Line 0 0 0 0 0 10\n"
  st.cout "ObjectEnd\n"

/-- The function `usage` (lines 88-97); it ends with `exit(1)`. -/
def usage {F : Type} (st : State F) : Outcome F :=
  let st := st.cerr ("Usage: turntable filepath" ++ "\n")
  let st := st.cerr ("\t-f specify maximum number of frames, default UINT_MAX" ++ "\n")
  let st := st.cerr ("\t-a render axis lines at the origin" ++ "\n")
  let st := st.cerr ("\t-l Enable 3 axis-aligned lights to better show off angles (Rather than ambient lighting)" ++ "\n")
  let st := st.cerr ("\t-r X | Y : Changes the axis of rotation to the one specified" ++ "\n")
  let st := st.cerr ("\t-v velocity: Change the speed of the rotation" ++ "\n")
  .exited 1 st

/-- The body of the loop of `check_opts` (lines 102-151) for the token
`argv[i]`, where `rest` is `argv[i+1], ..., argv[argc-1]`.  The test
`i == argc - 1` holds exactly when `rest` is empty, and `argv[i+1]` is the
head of `rest`.  `returned` means that the body was left normally (by
`break` or by falling out of the `if`) and the loop goes on. -/
def check_opts_body {F : Type} (env : Env F) (token : String) (rest : List String)
    (st : State F) : Outcome F :=
  if charAt token 0 = '-' then
    if charAt token 1 = 'f' then
      match rest with
      | [] => .exited (-1) (st.cerr "Must specify unsigned integer for -f!")
      | next :: _ =>
        let st1 := { st with max_frames := toUnsigned (atoi env next) }
        if st1.max_frames < 1 then
          .exited (-1) (st1.cerr ("Invalid frame count!" ++ "\n"))
        else .returned st1
    else if charAt token 1 = 'a' then
      .returned { st with render_axes := true }
    else if charAt token 1 = 'l' then
      .returned { st with use_axis_lights := true }
    else if charAt token 1 = 'r' then
      match rest with
      | [] => .exited (-1) (st.cerr "Must specify either X or Y for -r")
      | next :: _ =>
        let st1 := { st with axis := toupper (charAt next 0) }
        if st1.axis ≠ 'X' ∧ st1.axis ≠ 'Y' then
          .exited (-1) (st1.cerr "Invalid axis for -r!")
        else .returned st1
    else if charAt token 1 = 'v' then
      match rest with
      | [] => .exited (-1) (st.cerr "Must specify velocity for -v")
      | next :: _ => .returned { st with velocity := env.atof next }
    else
      .returned
        (st.cout ("Invalid option \"" ++ String.singleton (charAt token 1) ++ "\"" ++ "\n"))
  else .returned st

/-- The loop `for (int i = 0; i < argc; i++)` of `check_opts` (line 101)
from index `i` on, where the list is `argv[i], ..., argv[argc-1]`. -/
def check_opts_from {F : Type} (env : Env F) : List String → State F → Outcome F
  | [], st => .returned st
  | token :: rest, st =>
    match check_opts_body env token rest st with
    | .returned st1 => check_opts_from env rest st1
    | .exited n st1 => .exited n st1

/-- The function `check_opts` (lines 99-153). -/
def check_opts {F : Type} (env : Env F) (argv : List String) (st : State F) : Outcome F :=
  check_opts_from env argv st

/-- The header loop of `main` (lines 165-166). -/
def print_header {F : Type} : List String → State F → State F
  | [], st => st
  | h :: hs, st => print_header hs (st.cout (h ++ "\n"))

/-- The body of the animation loop of `main` for the counter value `frame`
(lines 173-197). -/
def frame_body {F : Type} (env : Env F) (poly : String) (frame : Int) (st : State F) :
    State F :=
  let st := st.cout ("FrameBegin " ++ toString frame ++ "\n")
  let st := st.cout "WorldBegin\n"
  let st :=
    if st.use_axis_lights then
      let st := st.cout "FarLight -1 0 0 1 0 0 0.5\n"
      let st := st.cout "FarLight 0 -1 0 0 1 0 0.5\n"
      let st := st.cout "FarLight 0 0 -1 0 0 1 0.5\n"
      st.cout "AmbientLight 1 1 1 0.8\n"
    else
      st.cout "AmbientLight 1 1 1 1\n"
  let st := st.cout "Ka 0.5\n"
  let st := st.cout "Kd 1\n"
  let st := if st.render_axes then st.cout "ObjectInstance \"Axes\"\n" else st
  let st := st.cout ("Rotate \"" ++ String.singleton st.axis ++ "\" "
    ++ env.fmt (env.mul st.velocity (env.ofInt frame)) ++ "\n")
  let st := st.cout poly
  let st := st.cout "WorldEnd\n"
  st.cout "FrameEnd\n"

/-- The animation loop `while (frame != max_frames)` of `main` (lines
171-200).  The comparison converts the `int` counter to `unsigned int`; the
increment wraps at 32 bits.  The result is the state when the loop is left,
or `none` when the fuel runs out first. -/
def frame_loop {F : Type} (env : Env F) (poly : String) : Nat → Int → State F →
    Option (State F)
  | 0, _, _ => none
  | fuel + 1, frame, st =>
    if toUnsigned frame ≠ st.max_frames then
      frame_loop env poly fuel (toInt32 (frame + 1)) (frame_body env poly frame st)
    else some st

/-- The function `main` (lines 155-203).  `return 0` is the outcome
`exited 0`. -/
def main {F : Type} (env : Env F) (fs : String → Option String) (fuel : Nat)
    (argv : List String) : Option (Outcome F) :=
  if argv.length < 2 then some (usage (State.init env))
  else
    match check_opts env argv (State.init env) with
    | .exited n st => some (.exited n st)
    | .returned st =>
      match poly_from_file fs fuel (argv.getD 1 "") st with
      | none => none
      | some (poly, st) =>
        let st := print_header header st
        let st := create_axes st
        match frame_loop env poly fuel 0 st with
        | none => none
        | some st => some (.exited 0 st)

/-! ## The output grammar, in the words of the specification

These definitions are the reference against which the embedding is compared:
the text of the preamble and of one frame block as the specification lists
them. -/

/-- Concatenation of a list of texts, in order. -/
def concat : List String → String
  | [] => ""
  | s :: l => s ++ concat l

/-- The fixed header lines, each followed by a newline. -/
def headerText : String :=
  concat
    [ "Display  \"animation\" \"Screen\" \"rgbdouble\"\n",
      "Format 640 480\n",
      "CameraEye 8 8 -5\n",
      "CameraAt 0 0 0\n",
      "CameraUp 0 0 1\n",
      "CameraFOV 76\n" ]

/-- The axes-object definition block: three 10-unit lines, red, green and
blue, along X, Y and Z. -/
def axesDefinition : String :=
  concat
    [ "ObjectBegin \"Axes\"\n",
      "Color 1 0 0\n", "Line 0 0 0 10 0 0\n",
      "Color 0 1 0\n", "Line 0 0 0 0 10 0\n",
      "Color 0 0 1\n", "Line 0 0 0 0 0 10\n",
      "ObjectEnd\n" ]

/-- The lighting lines of a frame block. -/
def lightingLines (useAxisLights : Bool) : String :=
  if useAxisLights then
    concat
      [ "FarLight -1 0 0 1 0 0 0.5\n",
        "FarLight 0 -1 0 0 1 0 0.5\n",
        "FarLight 0 0 -1 0 0 1 0.5\n",
        "AmbientLight 1 1 1 0.8\n" ]
  else "AmbientLight 1 1 1 1\n"

/-- The reference to the axes object, present when `renderAxes` is set. -/
def axesReference (renderAxes : Bool) : String :=
  if renderAxes then "ObjectInstance \"Axes\"\n" else ""

/-- The rotation directive naming an axis and carrying the text of an
angle. -/
def rotateDirective (axis : Char) (angle : String) : String :=
  "Rotate \"" ++ String.singleton axis ++ "\" " ++ angle ++ "\n"

/-- The angle of frame `i`: the one product of the velocity and the frame
index. -/
def frameAngle {F : Type} (env : Env F) (velocity : F) (i : Int) : F :=
  env.mul velocity (env.ofInt i)

/-- The frame block with index `i` for the configuration held in `st` and
the geometry blob `poly`. -/
def frameBlock {F : Type} (env : Env F) (st : State F) (poly : String) (i : Int) : String :=
  concat
    [ "FrameBegin " ++ toString i ++ "\n",
      "WorldBegin\n",
      lightingLines st.use_axis_lights,
      "Ka 0.5\n",
      "Kd 1\n",
      axesReference st.render_axes,
      rotateDirective st.axis (env.fmt (frameAngle env st.velocity i)),
      poly,
      "WorldEnd\n",
      "FrameEnd\n" ]

/-- The part of the frame block with index `i` that comes before its
rotation directive. -/
def frameHead {F : Type} (st : State F) (i : Int) : String :=
  concat
    [ "FrameBegin " ++ toString i ++ "\n",
      "WorldBegin\n",
      lightingLines st.use_axis_lights,
      "Ka 0.5\n",
      "Kd 1\n",
      axesReference st.render_axes ]

/-- The frame blocks with indices `k, k+1, ..., k+n-1`, the counter being a
32-bit `int`. -/
def frameBlocks {F : Type} (env : Env F) (st : State F) (poly : String) (k n : Nat) : String :=
  concat ((List.range' k n).map (fun (j : Nat) => frameBlock env st poly (toInt32 (j : Int))))

/-- The geometry blob of a run: what `poly_from_file` yields for `path`. -/
def blobOf (fs : String → Option String) (path : String) : String :=
  match fs path with
  | some contents => contents ++ "\n"
  | none => ""

/-- The warning left on `cerr` when the file at `path` does not open. -/
def openWarning (fs : String → Option String) (path : String) : String :=
  match fs path with
  | some _ => ""
  | none => "Failed to open polyfile at " ++ path ++ "!" ++ "\n"

/-- The line reporting the unknown option character `c`. -/
def invalidOptionLine (c : Char) : String :=
  "Invalid option \"" ++ String.singleton c ++ "\"" ++ "\n"

/-- The lines reporting the unknown option characters `cs`, in order. -/
def invalidOptionLines (cs : List Char) : String :=
  concat (cs.map invalidOptionLine)

/-- The two kinds of fatal configuration error of the specification. -/
inductive ErrorKind where
  | MissingArgument
  | InvalidArgument
  deriving DecidableEq, Repr

/-- The kind of error that a message on the error stream reports: the
three "Must specify" messages report a missing argument, the two "Invalid"
messages an invalid one. -/
def errorKind (err : String) : Option ErrorKind :=
  if err = "Must specify unsigned integer for -f!" ∨ err = "Must specify either X or Y for -r"
      ∨ err = "Must specify velocity for -v" then some .MissingArgument
  else if err = "Invalid frame count!\n" ∨ err = "Invalid axis for -r!" then
    some .InvalidArgument
  else none

/-- A token is read as a flag that `check_opts` does not know: it starts
with `-` and its second character is none of `f`, `a`, `l`, `r`, `v`. -/
def isUnknownFlag (t : String) : Bool :=
  charAt t 0 = '-' && charAt t 1 ≠ 'f' && charAt t 1 ≠ 'a' && charAt t 1 ≠ 'l'
    && charAt t 1 ≠ 'r' && charAt t 1 ≠ 'v'

/-- A token is read as one of the flags `-f`, `-r`, `-v`, which take the next
token as their value. -/
def takesValue (t : String) : Bool :=
  charAt t 0 = '-' && (charAt t 1 = 'f' || charAt t 1 = 'r' || charAt t 1 = 'v')

/-- Two states agree but for one line on standard output: the configuration
and the error stream are the same, and the output of `s` is the output of
`s0` with `line` put in after its first part `a`. -/
def InsertedLine {F : Type} (a line : String) (s s0 : State F) : Prop :=
  s.use_axis_lights = s0.use_axis_lights ∧ s.render_axes = s0.render_axes
    ∧ s.axis = s0.axis ∧ s.velocity = s0.velocity ∧ s.max_frames = s0.max_frames
    ∧ s.err = s0.err ∧ ∃ b : String, s0.out = a ++ b ∧ s.out = a ++ line ++ b

/-- Two outcomes end the same way, in states that agree but for one line on
standard output. -/
def OutcomeInserted {F : Type} (a line : String) : Outcome F → Outcome F → Prop
  | .returned s, .returned s0 => InsertedLine a line s s0
  | .exited n s, .exited m s0 => n = m ∧ InsertedLine a line s s0
  | _, _ => False

/-- The token `next` is a value that `check_opts` accepts after `token`: after
a token read as `-f`, one whose `atoi` value, as an `unsigned int`, is at
least `1`; after a token read as `-r`, one whose first character is, in upper
case, `X` or `Y`; after any other token, any token. -/
def valueAccepted {F : Type} (env : Env F) (token next : String) : Bool :=
  if charAt token 0 = '-' then
    if charAt token 1 = 'f' then decide (1 ≤ toUnsigned (atoi env next))
    else if charAt token 1 = 'r' then
      decide (toupper (charAt next 0) = 'X' ∨ toupper (charAt next 0) = 'Y')
    else true
  else true

/-- Every token of the argument vector that has a successor is followed by a
value that `check_opts` accepts after it. -/
def valuesAccepted {F : Type} (env : Env F) : List String → Bool
  | token :: next :: rest => valueAccepted env token next && valuesAccepted env (next :: rest)
  | _ => true

/-- A token is a value-taking flag with nothing else in it. -/
def isValueFlag (t : String) : Bool := t = "-f" || t = "-r" || t = "-v"

/-- A token is the text of an integer: an optional sign and then one or
more decimal digits, with nothing before or after. -/
def isIntegerText (t : String) : Bool :=
  match t.data with
  | '-' :: cs => !cs.isEmpty && cs.all Char.isDigit
  | '+' :: cs => !cs.isEmpty && cs.all Char.isDigit
  | cs => !cs.isEmpty && cs.all Char.isDigit

/-- A token is, letter case aside, the one-letter token `X` or `Y`. -/
def isAxisToken (t : String) : Bool :=
  t.data.map toupper = ['X'] || t.data.map toupper = ['Y']

/-- The newline-terminated lines of a text, in order; `cur` holds, in
reverse, the characters of the line being read.  Text after the last
newline is not a line. -/
def linesFrom : List Char → List Char → List String
  | _, [] => []
  | cur, c :: cs =>
    if c = '\n' then String.mk cur.reverse :: linesFrom [] cs
    else linesFrom (c :: cur) cs

/-- The newline-terminated lines of a text. -/
def textLines (s : String) : List String := linesFrom [] s.data

/-- The line that opens the axes-object definition. -/
def axesBeginLine : String := "ObjectBegin \"Axes\""

/-- A text is made of whole lines: it is empty or ends with a newline. -/
def LineComplete (s : String) : Prop := s = "" ∨ ∃ a : String, s = a ++ "\n"

/-- The characters `l` begin with the characters `p`. -/
def startsWithChars : List Char → List Char → Bool
  | [], _ => true
  | _ :: _, [] => false
  | a :: p, b :: l => decide (a = b) && startsWithChars p l

/-- The line `l` begins with the text `p`. -/
def lineStartsWith (p l : String) : Bool := startsWithChars p.data l.data

/-- The lines of the text `s` that begin with `p`, in order. -/
def linesStarting (p s : String) : List String := (textLines s).filter (lineStartsWith p)

/-- The lines of a frame block that depend neither on the frame index nor on
the blob, in order: all its lines but the `FrameBegin` line, the `Rotate`
line and the lines of the blob. -/
def fixedFrameLines (useAxisLights renderAxes : Bool) : List String :=
  ["WorldBegin"] ++ (textLines (lightingLines useAxisLights) ++ (["Ka 0.5"] ++ (["Kd 1"]
    ++ (textLines (axesReference renderAxes) ++ (["WorldEnd"] ++ ["FrameEnd"])))))

/-- How many lines of the text `s` are equal to `l`. -/
def countLine (l : String) (s : String) : Nat := (textLines s).count l

/-! ## A concrete environment

Decimal fixed-point numbers with three fractional digits stand in for
`float`, so that runs can be evaluated on concrete arguments.  On the values
used below (small whole numbers and tenths) they print as the C++ stream
prints the corresponding `float`. -/

/-- Value in thousandths of the first three digits of a fraction. -/
def fracValue (cs : List Char) : Nat :=
  let ds := (cs.takeWhile Char.isDigit).take 3
  digitsValue ds 0 * 10 ^ (3 - ds.length)

/-- The decimal number at the head of a token, in thousandths. -/
def decimalValue (s : String) : Int :=
  let body : List Char → Int := fun cs =>
    let ip := digitsValue cs 0
    match cs.dropWhile Char.isDigit with
    | '.' :: fs => ((ip * 1000 + fracValue fs : Nat) : Int)
    | _ => ((ip * 1000 : Nat) : Int)
  match s.data.dropWhile isspace with
  | '-' :: cs => -(body cs)
  | '+' :: cs => body cs
  | cs => body cs

/-- Shortest decimal text of a number given in thousandths. -/
def decimalText (x : Int) : String :=
  let n := x.natAbs
  let sign := if x < 0 then "-" else ""
  let f := n % 1000
  let frac :=
    if f = 0 then ""
    else if f % 100 = 0 then "." ++ toString (f / 100)
    else if f % 10 = 0 then "." ++ (if f < 100 then "0" else "") ++ toString (f / 10)
    else "." ++ (if f < 10 then "00" else if f < 100 then "0" else "") ++ toString f
  sign ++ toString (n / 1000) ++ frac

/-- The fixed-point environment. -/
def decimalEnv : Env Int :=
  { atof := decimalValue
    ofInt := fun i => i * 1000
    mul := fun a b => a * b / 1000
    fmt := decimalText
    lit_0_1 := 100
    atoi_overflow := fun _ => 0 }

/-- A file system with the single file `in.rd`. -/
def oneFile (contents : String) : String → Option String :=
  fun path => if path = "in.rd" then some contents else none

/-! ## Lemmas on machine integers and on the file loop -/

theorem toUnsigned_toInt32 (k : Nat) (hk : k < 4294967296) : toUnsigned (toInt32 k) = k := by
  unfold toUnsigned toInt32
  omega

theorem toInt32_succ (k : Nat) : toInt32 (toInt32 k + 1) = toInt32 ((k + 1 : Nat) : Int) := by
  unfold toInt32
  push_cast
  omega

theorem toInt32_small (k : Nat) (hk : (k : Int) ≤ INT_MAX) : toInt32 k = k := by
  unfold toInt32 INT_MAX at *
  omega

theorem getline_good (s : List Char) (h : (getline s).2.2 = true) :
    s = (getline s).1 ++ '\n' :: (getline s).2.1 := by
  induction s with
  | nil => simp [getline] at h
  | cons c cs ih =>
    unfold getline at h ⊢
    by_cases hc : c = '\n'
    · simp [hc]
    · simp only [hc, if_false] at h ⊢
      simp only [List.cons_append]
      rw [← ih h]

theorem getline_eof (s : List Char) (h : (getline s).2.2 = false) :
    s = (getline s).1 := by
  induction s with
  | nil => simp [getline]
  | cons c cs ih =>
    unfold getline at h ⊢
    by_cases hc : c = '\n'
    · simp [hc] at h
    · simp only [hc, if_false] at h ⊢
      rw [← ih h]

theorem mk_append (a b : List Char) : String.mk (a ++ b) = String.mk a ++ String.mk b := by
  apply String.ext
  simp

theorem read_loop_spec (fuel : Nat) : ∀ (s : List Char) (ss : String), s.length < fuel →
    read_loop fuel s ss = some (ss ++ String.mk s ++ "\n") := by
  induction fuel with
  | zero => intro s ss h; omega
  | succ n ih =>
    intro s ss h
    unfold read_loop
    by_cases hg : (getline s).2.2 = true
    · have hs := getline_good s hg
      have hlen : (getline s).2.1.length < n := by
        have : s.length = ((getline s).1 ++ '\n' :: (getline s).2.1).length := by rw [← hs]
        simp at this
        omega
      simp only [hg, if_true]
      rw [ih _ _ hlen]
      congr 1
      conv_rhs => rw [hs]
      rw [mk_append]
      apply String.ext
      simp
    · have hg2 : (getline s).2.2 = false := by simpa using hg
      have hs := getline_eof s hg2
      simp only [hg2]
      rw [← hs]
      simp

/-- With enough fuel `poly_from_file` returns the blob of the run and
writes to `cerr` only when the file does not open. -/
theorem poly_from_file_spec {F : Type} (fs : String → Option String) (fuel : Nat)
    (path : String) (st : State F)
    (hfuel : ∀ c, fs path = some c → c.length < fuel) :
    poly_from_file fs fuel path st =
      some (blobOf fs path, { st with err := st.err ++ openWarning fs path }) := by
  unfold poly_from_file blobOf openWarning
  cases h : fs path with
  | none => rfl
  | some c =>
    have := read_loop_spec fuel c.data "" (hfuel c h)
    simp only [this]
    simp

/-! ## Lemmas on the output of `main` -/

theorem print_header_spec {F : Type} (st : State F) :
    print_header header st = { st with out := st.out ++ headerText } := by
  simp only [print_header, header, headerText, concat, State.cout, String.append_assoc]
  congr 1

theorem create_axes_spec {F : Type} (st : State F) :
    create_axes st = { st with out := st.out ++ axesDefinition } := by
  simp [create_axes, axesDefinition, concat, State.cout, String.append_assoc, -String.reduceAppend]

theorem frame_body_spec {F : Type} (env : Env F) (poly : String) (i : Int) (st : State F) :
    frame_body env poly i st = { st with out := st.out ++ frameBlock env st poly i } := by
  cases hl : st.use_axis_lights <;> cases ha : st.render_axes <;>
    simp [frame_body, frameBlock, lightingLines, axesReference, rotateDirective, frameAngle,
      concat, State.cout, String.append_assoc, hl, ha, -String.reduceAppend]

theorem frameBlock_out {F : Type} (env : Env F) (st : State F) (o : String) (poly : String)
    (i : Int) : frameBlock env { st with out := o } poly i = frameBlock env st poly i := rfl

theorem frameBlocks_out {F : Type} (env : Env F) (st : State F) (o : String) (poly : String)
    (k n : Nat) : frameBlocks env { st with out := o } poly k n = frameBlocks env st poly k n :=
  rfl

theorem frameBlocks_succ {F : Type} (env : Env F) (st : State F) (poly : String) (k n : Nat) :
    frameBlocks env st poly k (n + 1) =
      frameBlock env st poly (toInt32 (k : Int)) ++ frameBlocks env st poly (k + 1) n := by
  simp [frameBlocks, List.range'_succ, concat]

/-- The animation loop started at counter `k` with `n` frames to go leaves
after exactly those `n` frame blocks, given more than `n` units of fuel. -/
theorem frame_loop_run {F : Type} (env : Env F) (poly : String) (n : Nat) :
    ∀ (k : Nat) (st : State F) (fuel : Nat), st.max_frames = k + n → k + n < 4294967296 →
      n < fuel →
      frame_loop env poly fuel (toInt32 (k : Int)) st =
        some { st with out := st.out ++ frameBlocks env st poly k n } := by
  induction n with
  | zero =>
    intro k st fuel hmax hlt hfuel
    obtain ⟨f, rfl⟩ : ∃ f, fuel = f + 1 := ⟨fuel - 1, by omega⟩
    have hu : toUnsigned (toInt32 (k : Int)) = st.max_frames := by
      rw [toUnsigned_toInt32 k (by omega)]; omega
    unfold frame_loop
    rw [if_neg (by simpa using hu)]
    have : frameBlocks env st poly k 0 = "" := rfl
    rw [this, String.append_empty]
  | succ n ih =>
    intro k st fuel hmax hlt hfuel
    obtain ⟨f, rfl⟩ : ∃ f, fuel = f + 1 := ⟨fuel - 1, by omega⟩
    have hu : toUnsigned (toInt32 (k : Int)) ≠ st.max_frames := by
      rw [toUnsigned_toInt32 k (by omega)]; omega
    unfold frame_loop
    rw [if_pos hu, toInt32_succ, frame_body_spec]
    rw [ih (k + 1) _ f (by show st.max_frames = _; omega) (by omega) (by omega)]
    rw [frameBlocks_succ, frameBlocks_out, String.append_assoc]

/-- The animation loop started at counter `k` with `n` frames to go is
still running after `fuel` tests of its condition when `fuel ≤ n`. -/
theorem frame_loop_running {F : Type} (env : Env F) (poly : String) (fuel : Nat) :
    ∀ (k n : Nat) (st : State F), st.max_frames = k + n → k + n < 4294967296 →
      fuel ≤ n → frame_loop env poly fuel (toInt32 (k : Int)) st = none := by
  induction fuel with
  | zero => intro k n st _ _ _; rfl
  | succ f ih =>
    intro k n st hmax hlt hfuel
    obtain ⟨m, rfl⟩ : ∃ m, n = m + 1 := ⟨n - 1, by omega⟩
    have hu : toUnsigned (toInt32 (k : Int)) ≠ st.max_frames := by
      rw [toUnsigned_toInt32 k (by omega)]; omega
    unfold frame_loop
    rw [if_pos hu, toInt32_succ, frame_body_spec]
    exact ih (k + 1) m _ (by show st.max_frames = _; omega) (by omega) (by omega)

theorem toInt32_zero : toInt32 ((0 : Nat) : Int) = 0 := by
  unfold toInt32; omega

/-- The whole run, once `check_opts` has returned: with enough fuel `main`
returns `0` after writing the header, the axes definition and one frame
block per value of the counter below `max_frames`. -/
theorem main_run {F : Type} (env : Env F) (fs : String → Option String) (fuel : Nat)
    (argv : List String) (st : State F)
    (hargc : 2 ≤ argv.length)
    (hopts : check_opts env argv (State.init env) = .returned st)
    (hmax : st.max_frames < 4294967296)
    (hfuel : st.max_frames < fuel)
    (hfile : ∀ c, fs (argv.getD 1 "") = some c → c.length < fuel) :
    main env fs fuel argv =
      some (.exited 0 { st with
        out := st.out ++ headerText ++ axesDefinition
          ++ frameBlocks env st (blobOf fs (argv.getD 1 "")) 0 st.max_frames
        err := st.err ++ openWarning fs (argv.getD 1 "") }) := by
  unfold main
  rw [if_neg (by omega), hopts]
  simp only [poly_from_file_spec fs fuel _ st hfile, print_header_spec, create_axes_spec]
  have h := frame_loop_run env (blobOf fs (argv.getD 1 "")) st.max_frames 0
    { st with out := st.out ++ headerText ++ axesDefinition,
              err := st.err ++ openWarning fs (argv.getD 1 "") } fuel
    (by show st.max_frames = _; omega) (by omega) hfuel
  rw [toInt32_zero] at h
  simp only [h]
  rfl

/-- While the counter stays within `INT_MAX` the frame blocks carry the
plain indices `0, 1, ..., n-1`. -/
theorem frameBlocks_small {F : Type} (env : Env F) (st : State F) (poly : String) (n : Nat)
    (hn : (n : Int) ≤ INT_MAX) :
    frameBlocks env st poly 0 n =
      concat ((List.range n).map (fun (i : Nat) => frameBlock env st poly (i : Int))) := by
  unfold frameBlocks
  rw [List.range_eq_range']
  apply congrArg concat
  apply List.map_congr_left
  intro j hj
  have hj2 : j < n := by
    have := List.mem_range'_1.mp hj
    omega
  rw [toInt32_small j (by unfold INT_MAX at *; omega)]

/-! ## Lemmas on `check_opts` -/

theorem check_opts_body_returned {F : Type} (env : Env F) (token : String)
    (rest : List String) (st st1 : State F)
    (h : check_opts_body env token rest st = .returned st1) :
    st1.err = st.err
      ∧ (st1.out = st.out ∨ ∃ c, st1.out = st.out ++ invalidOptionLine c)
      ∧ (st1.axis = st.axis ∨ st1.axis = 'X' ∨ st1.axis = 'Y')
      ∧ (st1.max_frames = st.max_frames ∨ (1 ≤ st1.max_frames ∧ st1.max_frames < 4294967296)) := by
  unfold check_opts_body at h
  split_ifs at h with h0 hf ha hl hr hv
  · cases rest with
    | nil => simp at h
    | cons next tl =>
      simp only at h
      split_ifs at h with hz
      simp only [Outcome.returned.injEq] at h
      subst h
      refine ⟨rfl, Or.inl rfl, Or.inl rfl, Or.inr ⟨?_, ?_⟩⟩
      · have hz2 : ¬(toUnsigned (atoi env next) < 1) := hz
        show 1 ≤ toUnsigned (atoi env next)
        omega
      · show toUnsigned _ < _
        unfold toUnsigned
        omega
  · simp only [Outcome.returned.injEq] at h
    subst h
    exact ⟨rfl, Or.inl rfl, Or.inl rfl, Or.inl rfl⟩
  · simp only [Outcome.returned.injEq] at h
    subst h
    exact ⟨rfl, Or.inl rfl, Or.inl rfl, Or.inl rfl⟩
  · cases rest with
    | nil => simp at h
    | cons next tl =>
      simp only at h
      split_ifs at h with hz
      simp only [Outcome.returned.injEq] at h
      subst h
      refine ⟨rfl, Or.inl rfl, Or.inr ?_, Or.inl rfl⟩
      simp only [ne_eq, not_and_or, not_not] at hz
      exact hz
  · cases rest with
    | nil => simp at h
    | cons next tl =>
      simp only [Outcome.returned.injEq] at h
      subst h
      exact ⟨rfl, Or.inl rfl, Or.inl rfl, Or.inl rfl⟩
  · simp only [Outcome.returned.injEq] at h
    subst h
    exact ⟨rfl, Or.inr ⟨_, rfl⟩, Or.inl rfl, Or.inl rfl⟩
  · simp only [Outcome.returned.injEq] at h
    subst h
    exact ⟨rfl, Or.inl rfl, Or.inl rfl, Or.inl rfl⟩

theorem check_opts_body_exited {F : Type} (env : Env F) (token : String)
    (rest : List String) (st st1 : State F) (n : Int)
    (h : check_opts_body env token rest st = .exited n st1) :
    n = -1 ∧ st1.out = st.out
      ∧ ∃ m, st1.err = st.err ++ m
          ∧ ((rest = [] ∧ errorKind m = some .MissingArgument)
            ∨ (rest ≠ [] ∧ errorKind m = some .InvalidArgument)) := by
  unfold check_opts_body at h
  split_ifs at h with h0 hf ha hl hr hv
  · cases rest with
    | nil =>
      simp only [Outcome.exited.injEq] at h
      obtain ⟨rfl, rfl⟩ := h
      exact ⟨rfl, rfl, _, rfl, Or.inl ⟨rfl, by decide⟩⟩
    | cons next tl =>
      simp only at h
      split_ifs at h with hz
      simp only [Outcome.exited.injEq] at h
      obtain ⟨rfl, rfl⟩ := h
      exact ⟨rfl, rfl, _, rfl, Or.inr ⟨by simp, by decide⟩⟩
  · cases rest with
    | nil =>
      simp only [Outcome.exited.injEq] at h
      obtain ⟨rfl, rfl⟩ := h
      exact ⟨rfl, rfl, _, rfl, Or.inl ⟨rfl, by decide⟩⟩
    | cons next tl =>
      simp only at h
      split_ifs at h with hz
      simp only [Outcome.exited.injEq] at h
      obtain ⟨rfl, rfl⟩ := h
      exact ⟨rfl, rfl, _, rfl, Or.inr ⟨by simp, by decide⟩⟩
  · cases rest with
    | nil =>
      simp only [Outcome.exited.injEq] at h
      obtain ⟨rfl, rfl⟩ := h
      exact ⟨rfl, rfl, _, rfl, Or.inl ⟨rfl, by decide⟩⟩
    | cons next tl => simp at h

theorem check_opts_body_no_f {F : Type} (env : Env F) (token : String)
    (rest : List String) (st st1 : State F)
    (hno : ¬(charAt token 0 = '-' ∧ charAt token 1 = 'f'))
    (h : check_opts_body env token rest st = .returned st1) :
    st1.max_frames = st.max_frames := by
  unfold check_opts_body at h
  split_ifs at h with h0 hf ha hl hr hv
  · exact absurd ⟨h0, hf⟩ hno
  · simp only [Outcome.returned.injEq] at h
    subst h; rfl
  · simp only [Outcome.returned.injEq] at h
    subst h; rfl
  · cases rest with
    | nil => simp at h
    | cons next tl =>
      simp only at h
      split_ifs at h with hz
      simp only [Outcome.returned.injEq] at h
      subst h; rfl
  · cases rest with
    | nil => simp at h
    | cons next tl =>
      simp only [Outcome.returned.injEq] at h
      subst h; rfl
  · simp only [Outcome.returned.injEq] at h
    subst h; rfl
  · simp only [Outcome.returned.injEq] at h
    subst h; rfl

theorem invalidOptionLines_cons (c : Char) (cs : List Char) :
    invalidOptionLines (c :: cs) = invalidOptionLine c ++ invalidOptionLines cs := rfl

/-- What `check_opts` leaves behind when it returns: the error stream is
untouched, standard output has grown by "Invalid option" lines only, the
axis is the old one or `X` or `Y`, and the frame limit is the old one or a
value from `1` to `UINT_MAX`. -/
theorem check_opts_from_returned {F : Type} (env : Env F) (argv : List String) :
    ∀ (st st1 : State F), check_opts_from env argv st = .returned st1 →
      st1.err = st.err
        ∧ (∃ cs, st1.out = st.out ++ invalidOptionLines cs)
        ∧ (st1.axis = st.axis ∨ st1.axis = 'X' ∨ st1.axis = 'Y')
        ∧ (st1.max_frames = st.max_frames
            ∨ (1 ≤ st1.max_frames ∧ st1.max_frames < 4294967296)) := by
  induction argv with
  | nil =>
    intro st st1 h
    simp only [check_opts_from, Outcome.returned.injEq] at h
    subst h
    exact ⟨rfl, ⟨[], (String.append_empty _).symm⟩, Or.inl rfl, Or.inl rfl⟩
  | cons token rest ih =>
    intro st st1 h
    unfold check_opts_from at h
    cases hb : check_opts_body env token rest st with
    | exited n s => rw [hb] at h; simp at h
    | returned s =>
      rw [hb] at h
      simp only at h
      obtain ⟨e1, o1, a1, m1⟩ := check_opts_body_returned env token rest st s hb
      obtain ⟨e2, ⟨cs, o2⟩, a2, m2⟩ := ih s st1 h
      refine ⟨e2.trans e1, ?_, ?_, ?_⟩
      · rcases o1 with o1 | ⟨c, o1⟩
        · exact ⟨cs, by rw [o2, o1]⟩
        · exact ⟨c :: cs, by rw [o2, o1, invalidOptionLines_cons, String.append_assoc]⟩
      · rcases a2 with a2 | a2
        · rw [a2]; exact a1
        · exact Or.inr a2
      · rcases m2 with m2 | m2
        · rw [m2]; exact m1
        · exact Or.inr m2

/-- What `check_opts` leaves behind when it exits: the status is `-1`,
standard output holds "Invalid option" lines only, and the error stream has
grown by one message, which reports a missing or an invalid argument. -/
theorem check_opts_from_exited {F : Type} (env : Env F) (argv : List String) :
    ∀ (st st1 : State F) (n : Int), check_opts_from env argv st = .exited n st1 →
      n = -1
        ∧ (∃ cs, st1.out = st.out ++ invalidOptionLines cs)
        ∧ ∃ m, st1.err = st.err ++ m
            ∧ (errorKind m = some .MissingArgument ∨ errorKind m = some .InvalidArgument) := by
  induction argv with
  | nil =>
    intro st st1 n h
    simp [check_opts_from] at h
  | cons token rest ih =>
    intro st st1 n h
    unfold check_opts_from at h
    cases hb : check_opts_body env token rest st with
    | exited k s =>
      rw [hb] at h
      simp only [Outcome.exited.injEq] at h
      obtain ⟨rfl, rfl⟩ := h
      obtain ⟨hk, ho, m, hm, hkind⟩ := check_opts_body_exited env token rest st s k hb
      refine ⟨hk, ⟨[], by rw [ho]; exact (String.append_empty _).symm⟩, m, hm, ?_⟩
      rcases hkind with ⟨_, hk1⟩ | ⟨_, hk1⟩
      · exact Or.inl hk1
      · exact Or.inr hk1
    | returned s =>
      rw [hb] at h
      simp only at h
      obtain ⟨e1, o1, _, _⟩ := check_opts_body_returned env token rest st s hb
      obtain ⟨hn, ⟨cs, o2⟩, m, hm, hkind⟩ := ih s st1 n h
      refine ⟨hn, ?_, m, by rw [hm, e1], hkind⟩
      rcases o1 with o1 | ⟨c, o1⟩
      · exact ⟨cs, by rw [o2, o1]⟩
      · exact ⟨c :: cs, by rw [o2, o1, invalidOptionLines_cons, String.append_assoc]⟩

/-- Without a `-f` token `check_opts` leaves the frame limit alone. -/
theorem check_opts_from_no_f {F : Type} (env : Env F) (argv : List String) :
    ∀ (st st1 : State F), (∀ t ∈ argv, ¬(charAt t 0 = '-' ∧ charAt t 1 = 'f')) →
      check_opts_from env argv st = .returned st1 → st1.max_frames = st.max_frames := by
  induction argv with
  | nil =>
    intro st st1 _ h
    simp only [check_opts_from, Outcome.returned.injEq] at h
    subst h; rfl
  | cons token rest ih =>
    intro st st1 hno h
    unfold check_opts_from at h
    cases hb : check_opts_body env token rest st with
    | exited n s => rw [hb] at h; simp at h
    | returned s =>
      rw [hb] at h
      simp only at h
      have h1 := check_opts_body_no_f env token rest st s (hno token (List.mem_cons_self _ _)) hb
      have h2 := ih s st1 (fun t ht => hno t (List.mem_cons_of_mem _ ht)) h
      rw [h2, h1]

theorem toupper_eq_X (c : Char) : toupper c = 'X' ↔ (c = 'x' ∨ c = 'X') := by
  constructor
  · intro h
    unfold toupper Char.toUpper at h
    simp only at h
    split_ifs at h with hr
    · have hc : c = Char.ofNat c.toNat := (Char.ofNat_toNat c).symm
      obtain ⟨h1, h2⟩ := hr
      generalize c.toNat = n at h hc h1 h2
      interval_cases n <;> first | (exact absurd h (by decide)) | (left; exact hc)
    · right; exact h
  · rintro (h | h) <;> subst h <;> rfl

theorem toupper_eq_Y (c : Char) : toupper c = 'Y' ↔ (c = 'y' ∨ c = 'Y') := by
  constructor
  · intro h
    unfold toupper Char.toUpper at h
    simp only at h
    split_ifs at h with hr
    · have hc : c = Char.ofNat c.toNat := (Char.ofNat_toNat c).symm
      obtain ⟨h1, h2⟩ := hr
      generalize c.toNat = n at h hc h1 h2
      interval_cases n <;> first | (exact absurd h (by decide)) | (left; exact hc)
    · right; exact h
  · rintro (h | h) <;> subst h <;> rfl

theorem charAt_flag (t : String) (h : charAt t 0 = '-') : ∃ cs, t.data = '-' :: cs := by
  cases t with
  | mk l =>
    cases l with
    | nil => exact absurd h (by decide)
    | cons c cs =>
      have hc : c = '-' := h
      exact ⟨cs, by rw [hc]⟩

theorem atoi_value_flag (t : String) (h : charAt t 0 = '-') : atoi_value t ≤ 0 := by
  obtain ⟨cs, hcs⟩ := charAt_flag t h
  unfold atoi_value
  rw [hcs]
  have : List.dropWhile isspace ('-' :: cs) = '-' :: cs := by
    rw [List.dropWhile_cons]
    rfl
  rw [this]
  simp

theorem check_opts_body_plain {F : Type} (env : Env F) (token : String) (rest : List String)
    (st : State F) (h : charAt token 0 ≠ '-') :
    check_opts_body env token rest st = .returned st := by
  unfold check_opts_body
  rw [if_neg h]

theorem toUnsigned_nonneg (v : Int) (h0 : 0 ≤ v) (h1 : v ≤ INT_MAX) :
    toUnsigned v = v.toNat := by
  unfold toUnsigned
  unfold INT_MAX at h1
  omega

theorem atoi_in_range {F : Type} (env : Env F) (t : String)
    (h0 : INT_MIN ≤ atoi_value t) (h1 : atoi_value t ≤ INT_MAX) : atoi env t = atoi_value t := by
  unfold atoi
  rw [if_pos ⟨h0, h1⟩]

theorem check_opts_from_plain {F : Type} (env : Env F) (token : String) (rest : List String)
    (st : State F) (h : charAt token 0 ≠ '-') :
    check_opts_from env (token :: rest) st = check_opts_from env rest st := by
  rw [check_opts_from, check_opts_body_plain env token rest st h]

theorem check_opts_body_f {F : Type} (env : Env F) (next : String) (tl : List String)
    (st : State F) :
    check_opts_body env "-f" (next :: tl) st =
      if toUnsigned (atoi env next) < 1 then
        .exited (-1) { st with max_frames := toUnsigned (atoi env next),
                               err := st.err ++ "Invalid frame count!\n" }
      else .returned { st with max_frames := toUnsigned (atoi env next) } := rfl

theorem check_opts_body_r {F : Type} (env : Env F) (next : String) (tl : List String)
    (st : State F) :
    check_opts_body env "-r" (next :: tl) st =
      if toupper (charAt next 0) ≠ 'X' ∧ toupper (charAt next 0) ≠ 'Y' then
        .exited (-1) { st with axis := toupper (charAt next 0),
                               err := st.err ++ "Invalid axis for -r!" }
      else .returned { st with axis := toupper (charAt next 0) } := rfl

theorem isValueFlag_cases (t : String) (h : isValueFlag t = true) :
    t = "-f" ∨ t = "-r" ∨ t = "-v" := by
  unfold isValueFlag at h
  simpa [Bool.or_eq_true, or_assoc] using h

theorem check_opts_body_last {F : Type} (env : Env F) (t : String) (st : State F)
    (h : isValueFlag t = true) :
    ∃ st1, check_opts_body env t [] st = .exited (-1) st1 := by
  rcases isValueFlag_cases t h with h | h | h <;> subst h <;> exact ⟨_, rfl⟩

/-- When the last token is `-f`, `-r` or `-v`, `check_opts` exits with `-1`. -/
theorem check_opts_from_last_flag {F : Type} (env : Env F) (t : String)
    (ht : isValueFlag t = true) (argv : List String) :
    ∀ (st : State F), argv.getLast? = some t →
      ∃ st1, check_opts_from env argv st = .exited (-1) st1 := by
  induction argv with
  | nil => intro st h; simp at h
  | cons token rest ih =>
    intro st h
    unfold check_opts_from
    cases rest with
    | nil =>
      have htok : token = t := by simpa using h
      subst htok
      obtain ⟨st1, h1⟩ := check_opts_body_last env token st ht
      rw [h1]
      exact ⟨st1, rfl⟩
    | cons t2 tl =>
      have h2 : (t2 :: tl).getLast? = some t := by
        rw [List.getLast?_cons_cons] at h
        exact h
      cases hb : check_opts_body env token (t2 :: tl) st with
      | exited k s =>
        obtain ⟨hk, _⟩ := check_opts_body_exited env token (t2 :: tl) st s k hb
        subst hk
        exact ⟨s, rfl⟩
      | returned s =>
        exact ih s h2

theorem frameBlock_eq_head {F : Type} (env : Env F) (st : State F) (poly : String) (i : Int) :
    frameBlock env st poly i =
      frameHead st i ++ rotateDirective st.axis (env.fmt (env.mul st.velocity (env.ofInt i)))
        ++ poly ++ "WorldEnd\n" ++ "FrameEnd\n" := by
  simp only [frameBlock, frameHead, frameAngle, concat, String.append_assoc,
    String.append_empty]

/-- The frame limit that `check_opts` returns is a value from `1` to
`UINT_MAX`. -/
theorem check_opts_max_frames {F : Type} (env : Env F) (argv : List String) (st : State F)
    (hopts : check_opts env argv (State.init env) = .returned st) :
    1 ≤ st.max_frames ∧ st.max_frames < 4294967296 := by
  obtain ⟨_, _, _, hm⟩ := check_opts_from_returned env argv (State.init env) st hopts
  rcases hm with hm | hm
  · rw [hm]
    show 1 ≤ UINT_MAX ∧ UINT_MAX < 4294967296
    unfold UINT_MAX
    omega
  · exact hm

theorem frame_body_text {F : Type} (env : Env F) (poly : String) (i : Int) (st : State F) :
    (frame_body env poly i { st with out := "" }).out = frameBlock env st poly i := by
  rw [frame_body_spec]
  exact String.empty_append _

/-! ## Lemmas on the lines of a text -/

theorem linesFrom_cons (cur : List Char) (c : Char) (cs : List Char) :
    linesFrom cur (c :: cs) =
      if c = '\n' then String.mk cur.reverse :: linesFrom [] cs else linesFrom (c :: cur) cs :=
  rfl

theorem linesFrom_append (a : List Char) : ∀ (cur b : List Char),
    linesFrom cur (a ++ '\n' :: b) = linesFrom cur (a ++ ['\n']) ++ linesFrom [] b := by
  induction a with
  | nil =>
    intro cur b
    simp [linesFrom]
  | cons c a ih =>
    intro cur b
    by_cases hc : c = '\n'
    · subst hc
      rw [List.cons_append, List.cons_append, linesFrom_cons, linesFrom_cons, if_pos rfl,
        if_pos rfl, ih [] b, List.cons_append]
    · rw [List.cons_append, List.cons_append, linesFrom_cons, linesFrom_cons, if_neg hc,
        if_neg hc]
      exact ih (c :: cur) b

theorem linesFrom_line (p : List Char) : ∀ (cur : List Char), '\n' ∉ p →
    linesFrom cur (p ++ ['\n']) = [String.mk (cur.reverse ++ p)] := by
  induction p with
  | nil =>
    intro cur _
    simp [linesFrom]
  | cons c p ih =>
    intro cur h
    have hc : c ≠ '\n' := fun e => h (by rw [e]; exact List.mem_cons_self _ _)
    have hp : '\n' ∉ p := fun e => h (List.mem_cons_of_mem _ e)
    rw [List.cons_append, linesFrom_cons, if_neg hc, ih (c :: cur) hp]
    simp

theorem textLines_append (s t : String) (hs : LineComplete s) :
    textLines (s ++ t) = textLines s ++ textLines t := by
  rcases hs with hs | ⟨a, hs⟩
  · subst hs
    rw [String.empty_append]
    rfl
  · subst hs
    unfold textLines
    have h1 : (a ++ "\n" ++ t).data = a.data ++ '\n' :: t.data := by
      simp only [String.data_append]
      simp
    have h2 : (a ++ "\n").data = a.data ++ ['\n'] := by
      simp only [String.data_append]
    rw [h1, h2]
    exact linesFrom_append a.data [] t.data

theorem textLines_line (p : String) (hp : '\n' ∉ p.data) : textLines (p ++ "\n") = [p] := by
  unfold textLines
  have h2 : (p ++ "\n").data = p.data ++ ['\n'] := by
    simp only [String.data_append]
  rw [h2, linesFrom_line p.data [] hp]
  simp

theorem countLine_append (l s t : String) (hs : LineComplete s) :
    countLine l (s ++ t) = countLine l s + countLine l t := by
  unfold countLine
  rw [textLines_append s t hs, List.count_append]

theorem lineComplete_empty : LineComplete "" := Or.inl rfl

theorem lineComplete_line (a : String) : LineComplete (a ++ "\n") := Or.inr ⟨a, rfl⟩

theorem lineComplete_append (s t : String) (hs : LineComplete s) (ht : LineComplete t) :
    LineComplete (s ++ t) := by
  rcases ht with ht | ⟨b, ht⟩
  · subst ht
    rw [String.append_empty]
    exact hs
  · subst ht
    rw [← String.append_assoc]
    exact lineComplete_line _

theorem lineComplete_blobOf (fs : String → Option String) (path : String) :
    LineComplete (blobOf fs path) := by
  unfold blobOf
  cases fs path with
  | none => exact lineComplete_empty
  | some c => exact lineComplete_line c

theorem digitChar_ne_newline (n : Nat) (h : n < 10) : Nat.digitChar n ≠ '\n' := by
  interval_cases n <;> decide

theorem toDigitsCore_no_newline (fuel : Nat) : ∀ (n : Nat) (ds : List Char),
    '\n' ∉ ds → '\n' ∉ Nat.toDigitsCore 10 fuel n ds := by
  induction fuel with
  | zero => intro n ds h; simpa [Nat.toDigitsCore] using h
  | succ f ih =>
    intro n ds h
    have hd : '\n' ∉ Nat.digitChar (n % 10) :: ds := by
      intro hm
      rcases List.mem_cons.mp hm with e | e
      · exact digitChar_ne_newline _ (Nat.mod_lt _ (by decide)) e.symm
      · exact h e
    unfold Nat.toDigitsCore
    simp only
    split_ifs
    · exact hd
    · exact ih _ _ hd

theorem nat_repr_no_newline (n : Nat) : '\n' ∉ (Nat.repr n).data := by
  unfold Nat.repr Nat.toDigits
  exact toDigitsCore_no_newline _ _ _ (by simp)

theorem int_toString_no_newline (i : Int) : '\n' ∉ (toString i).data := by
  cases i with
  | ofNat m => exact nat_repr_no_newline m
  | negSucc m =>
    show '\n' ∉ ("-" ++ Nat.repr (m + 1)).data
    rw [String.data_append]
    intro h
    rcases List.mem_append.mp h with e | e
    · exact absurd e (by decide)
    · exact nat_repr_no_newline _ e

theorem lineComplete_concat (ps : List String) (h : ∀ p ∈ ps, LineComplete p) :
    LineComplete (concat ps) := by
  induction ps with
  | nil => exact lineComplete_empty
  | cons p ps ih =>
    exact lineComplete_append p (concat ps) (h p (List.mem_cons_self _ _))
      (ih (fun q hq => h q (List.mem_cons_of_mem _ hq)))

theorem textLines_concat (ps : List String) (h : ∀ p ∈ ps, LineComplete p) :
    textLines (concat ps) = ps.flatMap textLines := by
  induction ps with
  | nil => rfl
  | cons p ps ih =>
    show textLines (p ++ concat ps) = _
    rw [textLines_append p _ (h p (List.mem_cons_self _ _)),
      ih (fun q hq => h q (List.mem_cons_of_mem _ hq)), List.flatMap_cons]

theorem countLine_concat (l : String) (ps : List String) (h : ∀ p ∈ ps, LineComplete p) :
    countLine l (concat ps) = (ps.map (countLine l)).sum := by
  induction ps with
  | nil => rfl
  | cons p ps ih =>
    show countLine l (p ++ concat ps) = _
    rw [countLine_append l p _ (h p (List.mem_cons_self _ _)),
      ih (fun q hq => h q (List.mem_cons_of_mem _ hq)), List.map_cons, List.sum_cons]

theorem lineComplete_lightingLines (b : Bool) : LineComplete (lightingLines b) := by
  cases b
  · exact Or.inr ⟨"AmbientLight 1 1 1 1", by decide⟩
  · exact lineComplete_concat _ (by
      intro p hp
      simp only [List.mem_cons, List.mem_singleton, List.not_mem_nil, or_false] at hp
      rcases hp with rfl | rfl | rfl | rfl
      · exact Or.inr ⟨"FarLight -1 0 0 1 0 0 0.5", by decide⟩
      · exact Or.inr ⟨"FarLight 0 -1 0 0 1 0 0.5", by decide⟩
      · exact Or.inr ⟨"FarLight 0 0 -1 0 0 1 0.5", by decide⟩
      · exact Or.inr ⟨"AmbientLight 1 1 1 0.8", by decide⟩)

theorem lineComplete_axesReference (b : Bool) : LineComplete (axesReference b) := by
  cases b
  · exact lineComplete_empty
  · exact Or.inr ⟨"ObjectInstance \"Axes\"", by decide⟩

theorem frameBegin_no_newline (i : Int) : '\n' ∉ ("FrameBegin " ++ toString i).data := by
  rw [String.data_append]
  intro h
  rcases List.mem_append.mp h with e | e
  · exact absurd e (by decide)
  · exact int_toString_no_newline i e

theorem rotate_no_newline (axis : Char) (angle : String) (hax : axis ≠ '\n')
    (hangle : '\n' ∉ angle.data) :
    '\n' ∉ ("Rotate \"" ++ String.singleton axis ++ "\" " ++ angle).data := by
  simp only [String.data_append]
  intro h
  rcases List.mem_append.mp h with e | e
  · rcases List.mem_append.mp e with e | e
    · rcases List.mem_append.mp e with e | e
      · exact absurd e (by decide)
      · have : '\n' = axis := by simpa [String.singleton] using e
        exact hax this.symm
    · exact absurd e (by decide)
  · exact hangle e

/-- The lines of a frame block, in order. -/
theorem textLines_frameBlock {F : Type} (env : Env F) (st : State F) (poly : String) (i : Int)
    (hfmt : ∀ x, '\n' ∉ (env.fmt x).data) (hax : st.axis ≠ '\n')
    (hpoly : LineComplete poly) :
    textLines (frameBlock env st poly i) =
      ["FrameBegin " ++ toString i] ++ (["WorldBegin"]
        ++ (textLines (lightingLines st.use_axis_lights) ++ (["Ka 0.5"] ++ (["Kd 1"]
        ++ (textLines (axesReference st.render_axes)
        ++ (["Rotate \"" ++ String.singleton st.axis ++ "\" "
              ++ env.fmt (env.mul st.velocity (env.ofInt i))]
        ++ (textLines poly ++ (["WorldEnd"] ++ ["FrameEnd"])))))))) := by
  unfold frameBlock
  rw [textLines_concat _ (by
    intro p hp
    simp only [List.mem_cons, List.mem_singleton, List.not_mem_nil, or_false] at hp
    rcases hp with rfl | rfl | rfl | rfl | rfl | rfl | rfl | rfl | rfl | rfl
    · exact lineComplete_line _
    · exact Or.inr ⟨"WorldBegin", by decide⟩
    · exact lineComplete_lightingLines _
    · exact Or.inr ⟨"Ka 0.5", by decide⟩
    · exact Or.inr ⟨"Kd 1", by decide⟩
    · exact lineComplete_axesReference _
    · exact lineComplete_line _
    · exact hpoly
    · exact Or.inr ⟨"WorldEnd", by decide⟩
    · exact Or.inr ⟨"FrameEnd", by decide⟩)]
  simp only [List.flatMap_cons, List.flatMap_nil, List.append_nil]
  rw [textLines_line _ (frameBegin_no_newline i)]
  unfold rotateDirective frameAngle
  rw [textLines_line _ (rotate_no_newline st.axis _ hax (hfmt _))]
  rfl

theorem lineComplete_frameBlock {F : Type} (env : Env F) (st : State F) (poly : String)
    (i : Int) : LineComplete (frameBlock env st poly i) := by
  rw [frameBlock_eq_head]
  have h : "FrameEnd\n" = "FrameEnd" ++ "\n" := by decide
  rw [h, ← String.append_assoc]
  exact lineComplete_line _

theorem lineComplete_frameBlocks {F : Type} (env : Env F) (st : State F) (poly : String)
    (k n : Nat) : LineComplete (frameBlocks env st poly k n) := by
  unfold frameBlocks
  apply lineComplete_concat
  intro p hp
  obtain ⟨j, _, rfl⟩ := List.mem_map.mp hp
  exact lineComplete_frameBlock env st poly _

theorem lineComplete_invalidOptionLines (cs : List Char) :
    LineComplete (invalidOptionLines cs) := by
  unfold invalidOptionLines
  apply lineComplete_concat
  intro p hp
  obtain ⟨c, _, rfl⟩ := List.mem_map.mp hp
  exact lineComplete_line _

/-- An "Invalid option" line is never the line that opens the axes
definition. -/
theorem countLine_axesBegin_invalidOptionLine (c : Char) :
    countLine axesBeginLine (invalidOptionLine c) = 0 := by
  by_cases hc : c = '\n'
  · subst hc
    decide
  · unfold invalidOptionLine countLine
    rw [textLines_line _ (by
      simp only [String.data_append]
      intro h
      rcases List.mem_append.mp h with e | e
      · rcases List.mem_append.mp e with e | e
        · exact absurd e (by decide)
        · have : '\n' = c := by simpa [String.singleton] using e
          exact hc this.symm
      · exact absurd e (by decide))]
    rw [List.count_singleton]
    rw [if_neg]
    intro e
    have e2 := congrArg (fun s => s.data.head?) (eq_of_beq e)
    simp [String.data_append, axesBeginLine] at e2

theorem countLine_axesBegin_invalidOptionLines (cs : List Char) :
    countLine axesBeginLine (invalidOptionLines cs) = 0 := by
  unfold invalidOptionLines
  rw [countLine_concat _ _ (by
    intro p hp
    obtain ⟨c, _, rfl⟩ := List.mem_map.mp hp
    exact lineComplete_line _)]
  rw [List.map_map]
  apply List.sum_eq_zero
  intro x hx
  obtain ⟨c, _, rfl⟩ := List.mem_map.mp hx
  exact countLine_axesBegin_invalidOptionLine c

/-- Outside the blob a frame block has no line that opens the axes
definition. -/
theorem countLine_axesBegin_frameBlock {F : Type} (env : Env F) (st : State F) (poly : String)
    (i : Int) (hfmt : ∀ x, '\n' ∉ (env.fmt x).data) (hax : st.axis ≠ '\n')
    (hpoly : LineComplete poly) :
    countLine axesBeginLine (frameBlock env st poly i) = countLine axesBeginLine poly := by
  unfold countLine
  rw [textLines_frameBlock env st poly i hfmt hax hpoly]
  simp only [List.count_append]
  have h1 : List.count axesBeginLine ["FrameBegin " ++ toString i] = 0 := by
    rw [List.count_singleton, if_neg]
    intro e
    have e2 := congrArg (fun s => s.data.head?) (eq_of_beq e)
    simp [String.data_append, axesBeginLine] at e2
  have h2 : List.count axesBeginLine ["Rotate \"" ++ String.singleton st.axis ++ "\" "
      ++ env.fmt (env.mul st.velocity (env.ofInt i))] = 0 := by
    rw [List.count_singleton, if_neg]
    intro e
    have e2 := congrArg (fun s => s.data.head?) (eq_of_beq e)
    simp [String.data_append, axesBeginLine] at e2
  have h3 : List.count axesBeginLine (textLines (lightingLines st.use_axis_lights)) = 0 := by
    cases st.use_axis_lights <;> decide
  have h4 : List.count axesBeginLine (textLines (axesReference st.render_axes)) = 0 := by
    cases st.render_axes <;> decide
  rw [h1, h2, h3, h4]
  have h5 : List.count axesBeginLine ["WorldBegin"] = 0 := by decide
  have h6 : List.count axesBeginLine ["Ka 0.5"] = 0 := by decide
  have h7 : List.count axesBeginLine ["Kd 1"] = 0 := by decide
  have h8 : List.count axesBeginLine ["WorldEnd"] = 0 := by decide
  have h9 : List.count axesBeginLine ["FrameEnd"] = 0 := by decide
  rw [h5, h6, h7, h8, h9]
  omega

theorem countLine_axesBegin_frameBlocks {F : Type} (env : Env F) (st : State F)
    (poly : String) (k n : Nat) (hfmt : ∀ x, '\n' ∉ (env.fmt x).data) (hax : st.axis ≠ '\n')
    (hpoly : LineComplete poly) :
    countLine axesBeginLine (frameBlocks env st poly k n) = n * countLine axesBeginLine poly := by
  induction n generalizing k with
  | zero =>
    rw [Nat.zero_mul]
    rfl
  | succ n ih =>
    rw [frameBlocks_succ, countLine_append _ _ _ (lineComplete_frameBlock env st poly _),
      countLine_axesBegin_frameBlock env st poly _ hfmt hax hpoly, ih (k + 1)]
    rw [Nat.succ_mul]
    omega

/-- The axis that `check_opts` returns is one of `X`, `Y`, `Z`. -/
theorem check_opts_axis {F : Type} (env : Env F) (argv : List String) (st : State F)
    (hopts : check_opts env argv (State.init env) = .returned st) :
    st.axis = 'X' ∨ st.axis = 'Y' ∨ st.axis = 'Z' := by
  obtain ⟨_, _, ha, _⟩ := check_opts_from_returned env argv (State.init env) st hopts
  rcases ha with ha | ha | ha
  · exact Or.inr (Or.inr ha)
  · exact Or.inl ha
  · exact Or.inr (Or.inl ha)

/-- Standard output after `check_opts` has returned holds "Invalid option"
lines only. -/
theorem check_opts_out {F : Type} (env : Env F) (argv : List String) (st : State F)
    (hopts : check_opts env argv (State.init env) = .returned st) :
    ∃ cs, st.out = invalidOptionLines cs := by
  obtain ⟨_, ⟨cs, ho⟩, _, _⟩ := check_opts_from_returned env argv (State.init env) st hopts
  exact ⟨cs, by rw [ho]; exact String.empty_append _⟩

theorem lineComplete_headerText : LineComplete headerText :=
  Or.inr ⟨"Display  \"animation\" \"Screen\" \"rgbdouble\"\nFormat 640 480\nCameraEye 8 8 -5\nCameraAt 0 0 0\nCameraUp 0 0 1\nCameraFOV 76", by decide⟩

theorem lineComplete_axesDefinition : LineComplete axesDefinition :=
  Or.inr ⟨"ObjectBegin \"Axes\"\nColor 1 0 0\nLine 0 0 0 10 0 0\nColor 0 1 0\nLine 0 0 0 0 10 0\nColor 0 0 1\nLine 0 0 0 0 0 10\nObjectEnd", by decide⟩

theorem no_newline_append (a b : String) (ha : '\n' ∉ a.data) (hb : '\n' ∉ b.data) :
    '\n' ∉ (a ++ b).data := by
  rw [String.data_append]
  intro h
  rcases List.mem_append.mp h with e | e
  · exact ha e
  · exact hb e

/-- The text of a fixed-point number holds no newline. -/
theorem decimalText_no_newline (x : Int) : '\n' ∉ (decimalText x).data := by
  unfold decimalText
  simp only
  apply no_newline_append
  · apply no_newline_append
    · split_ifs <;> decide
    · exact nat_repr_no_newline _
  · split_ifs <;>
      first
      | decide
      | exact no_newline_append _ _ (by decide) (nat_repr_no_newline _)

/-- The loop of `check_opts` always goes on with the very next token. -/
theorem check_opts_from_step {F : Type} (env : Env F) (token : String) (rest : List String)
    (st st1 : State F) (h : check_opts_body env token rest st = .returned st1) :
    check_opts_from env (token :: rest) st = check_opts_from env rest st1 := by
  rw [check_opts_from, h]

/-- A token that reads as a negative number and starts with `-` has a digit
as its second character. -/
theorem negative_token_digit (t : String) (hneg : atoi_value t < 0) (h : charAt t 0 = '-') :
    (charAt t 1).isDigit = true := by
  obtain ⟨cs, hcs⟩ := charAt_flag t h
  have hv : atoi_value t = -((digitsValue cs 0 : Nat) : Int) := by
    unfold atoi_value
    rw [hcs]
    have : List.dropWhile isspace ('-' :: cs) = '-' :: cs := by
      rw [List.dropWhile_cons]
      rfl
    rw [this]
    simp
  have h1 : charAt t 1 = cs.getD 0 (Char.ofNat 0) := by
    unfold charAt
    rw [hcs]
    rfl
  rw [h1]
  cases cs with
  | nil =>
    rw [hv] at hneg
    simp [digitsValue] at hneg
  | cons c cs2 =>
    show c.isDigit = true
    by_contra hc
    rw [hv] at hneg
    unfold digitsValue at hneg
    rw [if_neg hc] at hneg
    simp at hneg

/-- The pass of the loop over a last token returns unless the token is a
`-f`, `-r` or `-v` flag. -/
theorem check_opts_body_single {F : Type} (env : Env F) (t : String) (st : State F)
    (h : ¬(charAt t 0 = '-'
        ∧ (charAt t 1 = 'f' ∨ charAt t 1 = 'r' ∨ charAt t 1 = 'v'))) :
    ∃ st1, check_opts_body env t [] st = .returned st1 := by
  unfold check_opts_body
  split_ifs with h0 hf ha hl hr hv
  · exact absurd ⟨h0, Or.inl hf⟩ h
  · exact ⟨_, rfl⟩
  · exact ⟨_, rfl⟩
  · exact absurd ⟨h0, Or.inr (Or.inl hr)⟩ h
  · exact absurd ⟨h0, Or.inr (Or.inr hv)⟩ h
  · exact ⟨_, rfl⟩
  · exact ⟨_, rfl⟩

theorem toUnsigned_negative (v : Int) (h0 : INT_MIN ≤ v) (h1 : v < 0) :
    toUnsigned v = (v + 4294967296).toNat ∧ 1 ≤ toUnsigned v := by
  unfold toUnsigned
  unfold INT_MIN at h0
  omega

/-! ## Counting and selecting lines of the output -/

theorem ne_of_start (p a l : String) (ha : lineStartsWith p a = true)
    (hl : lineStartsWith p l = false) : a ≠ l := by
  intro e
  rw [e, hl] at ha
  exact Bool.false_ne_true ha

theorem frameBegin_ne (l : String) (h : lineStartsWith "Fr" l = false) (i : Int) :
    "FrameBegin " ++ toString i ≠ l :=
  ne_of_start "Fr" _ l rfl h

theorem rotate_ne (l : String) (h : lineStartsWith "R" l = false) (axis : Char)
    (angle : String) : "Rotate \"" ++ String.singleton axis ++ "\" " ++ angle ≠ l :=
  ne_of_start "R" _ l rfl h

theorem invalidOption_ne (l : String) (h : lineStartsWith "I" l = false) (c : Char) :
    "Invalid option \"" ++ String.singleton c ++ "\"" ≠ l :=
  ne_of_start "I" _ l rfl h

/-- The lines of a frame block equal to `l`, when `l` is neither its
`FrameBegin` line nor its `Rotate` line: those among the fixed lines and
those of the blob. -/
theorem countLine_frameBlock {F : Type} (l : String) (env : Env F) (st : State F)
    (poly : String) (i : Int)
    (hfmt : ∀ x, '\n' ∉ (env.fmt x).data) (hax : st.axis ≠ '\n') (hpoly : LineComplete poly)
    (h1 : "FrameBegin " ++ toString i ≠ l)
    (h2 : "Rotate \"" ++ String.singleton st.axis ++ "\" "
        ++ env.fmt (env.mul st.velocity (env.ofInt i)) ≠ l) :
    countLine l (frameBlock env st poly i) =
      List.count l (fixedFrameLines st.use_axis_lights st.render_axes) + countLine l poly := by
  unfold countLine fixedFrameLines
  rw [textLines_frameBlock env st poly i hfmt hax hpoly]
  simp only [List.count_append]
  have c1 : List.count l ["FrameBegin " ++ toString i] = 0 := by
    rw [List.count_singleton, if_neg]
    intro e
    exact h1 (eq_of_beq e)
  have c2 : List.count l ["Rotate \"" ++ String.singleton st.axis ++ "\" "
      ++ env.fmt (env.mul st.velocity (env.ofInt i))] = 0 := by
    rw [List.count_singleton, if_neg]
    intro e
    exact h2 (eq_of_beq e)
  rw [c1, c2]
  omega

/-- The lines of a frame block selected by `P`, when `P` rejects its
`FrameBegin` line and its `Rotate` line. -/
theorem filter_frameBlock {F : Type} (P : String → Bool) (env : Env F) (st : State F)
    (poly : String) (i : Int)
    (hfmt : ∀ x, '\n' ∉ (env.fmt x).data) (hax : st.axis ≠ '\n') (hpoly : LineComplete poly)
    (h1 : P ("FrameBegin " ++ toString i) = false)
    (h2 : P ("Rotate \"" ++ String.singleton st.axis ++ "\" "
        ++ env.fmt (env.mul st.velocity (env.ofInt i))) = false) :
    (textLines (frameBlock env st poly i)).filter P =
      (["WorldBegin"] ++ (textLines (lightingLines st.use_axis_lights) ++ (["Ka 0.5"]
        ++ (["Kd 1"] ++ textLines (axesReference st.render_axes))))).filter P
      ++ ((textLines poly).filter P ++ (["WorldEnd"] ++ ["FrameEnd"]).filter P) := by
  rw [textLines_frameBlock env st poly i hfmt hax hpoly]
  have c1 : List.filter P ["FrameBegin " ++ toString i] = [] := by
    rw [List.filter_cons_of_neg (by rw [h1]; exact Bool.false_ne_true)]
    rfl
  have c2 : List.filter P ["Rotate \"" ++ String.singleton st.axis ++ "\" "
      ++ env.fmt (env.mul st.velocity (env.ofInt i))] = [] := by
    rw [List.filter_cons_of_neg (by rw [h2]; exact Bool.false_ne_true)]
    rfl
  simp only [List.filter_append, c1, c2, List.nil_append, List.append_assoc]

theorem countLine_frameBlocks {F : Type} (l : String) (env : Env F) (st : State F)
    (poly : String) (k n : Nat)
    (hfmt : ∀ x, '\n' ∉ (env.fmt x).data) (hax : st.axis ≠ '\n') (hpoly : LineComplete poly)
    (h1 : ∀ i : Int, "FrameBegin " ++ toString i ≠ l)
    (h2 : ∀ i : Int, "Rotate \"" ++ String.singleton st.axis ++ "\" "
        ++ env.fmt (env.mul st.velocity (env.ofInt i)) ≠ l) :
    countLine l (frameBlocks env st poly k n) =
      n * (List.count l (fixedFrameLines st.use_axis_lights st.render_axes)
        + countLine l poly) := by
  induction n generalizing k with
  | zero =>
    rw [Nat.zero_mul]
    rfl
  | succ n ih =>
    rw [frameBlocks_succ, countLine_append _ _ _ (lineComplete_frameBlock env st poly _),
      countLine_frameBlock l env st poly _ hfmt hax hpoly (h1 _) (h2 _), ih (k + 1),
      Nat.succ_mul]
    omega

/-- The "Invalid option" lines hold no line equal to `l`, when `l` is no
piece of such a report. -/
theorem countLine_invalidOptionLines (l : String) (cs : List Char)
    (hw1 : ∀ c : Char, "Invalid option \"" ++ String.singleton c ++ "\"" ≠ l)
    (hw2 : "Invalid option \"" ≠ l) (hw3 : "\"" ≠ l) :
    countLine l (invalidOptionLines cs) = 0 := by
  unfold invalidOptionLines
  rw [countLine_concat _ _ (by
    intro p hp
    obtain ⟨c, _, rfl⟩ := List.mem_map.mp hp
    exact lineComplete_line _)]
  rw [List.map_map]
  apply List.sum_eq_zero
  intro x hx
  obtain ⟨c, _, rfl⟩ := List.mem_map.mp hx
  show countLine l (invalidOptionLine c) = 0
  by_cases hc : c = '\n'
  · subst hc
    have ht : textLines (invalidOptionLine '\n') = ["Invalid option \"", "\""] := by decide
    unfold countLine
    rw [ht, List.count_cons, List.count_singleton, if_neg (fun e => hw3 (eq_of_beq e)),
      if_neg (fun e => hw2 (eq_of_beq e))]
  · unfold invalidOptionLine countLine
    rw [textLines_line _ (by
      simp only [String.data_append]
      intro h
      rcases List.mem_append.mp h with e | e
      · rcases List.mem_append.mp e with e | e
        · exact absurd e (by decide)
        · have : '\n' = c := by simpa [String.singleton] using e
          exact hc this.symm
      · exact absurd e (by decide))]
    rw [List.count_singleton, if_neg (fun e => hw1 c (eq_of_beq e))]

/-- How often a line `l` occurs on standard output at the end of a run, when
`l` is neither a `FrameBegin` line, nor a `Rotate` line, nor a piece of an
"Invalid option" report. -/
theorem countLine_output {F : Type} (l : String) (env : Env F) (st : State F)
    (poly : String) (n : Nat) (cs : List Char)
    (hfmt : ∀ x, '\n' ∉ (env.fmt x).data) (hax : st.axis ≠ '\n') (hpoly : LineComplete poly)
    (hout : st.out = invalidOptionLines cs)
    (h1 : ∀ i : Int, "FrameBegin " ++ toString i ≠ l)
    (h2 : ∀ i : Int, "Rotate \"" ++ String.singleton st.axis ++ "\" "
        ++ env.fmt (env.mul st.velocity (env.ofInt i)) ≠ l)
    (hw1 : ∀ c : Char, "Invalid option \"" ++ String.singleton c ++ "\"" ≠ l)
    (hw2 : "Invalid option \"" ≠ l) (hw3 : "\"" ≠ l) :
    countLine l (st.out ++ headerText ++ axesDefinition ++ frameBlocks env st poly 0 n) =
      countLine l headerText + countLine l axesDefinition
        + n * (List.count l (fixedFrameLines st.use_axis_lights st.render_axes)
            + countLine l poly) := by
  have hc1 : LineComplete st.out := by
    rw [hout]
    exact lineComplete_invalidOptionLines cs
  have hc2 : LineComplete (st.out ++ headerText) :=
    lineComplete_append _ _ hc1 lineComplete_headerText
  have hc3 : LineComplete (st.out ++ headerText ++ axesDefinition) :=
    lineComplete_append _ _ hc2 lineComplete_axesDefinition
  rw [countLine_append _ _ _ hc3, countLine_append _ _ _ hc2, countLine_append _ _ _ hc1,
    countLine_frameBlocks l env st poly 0 n hfmt hax hpoly h1 h2, hout,
    countLine_invalidOptionLines l cs hw1 hw2 hw3]
  omega


/-- The count of `countLine_output` for a line that begins neither with
`Fr`, nor with `R`, nor with `I`, and is not a lone double quote. -/
theorem countLine_output_plain {F : Type} (l : String) (env : Env F) (st : State F)
    (poly : String) (n : Nat) (cs : List Char)
    (hfmt : ∀ x, '\n' ∉ (env.fmt x).data) (hax : st.axis ≠ '\n') (hpoly : LineComplete poly)
    (hout : st.out = invalidOptionLines cs)
    (hFr : lineStartsWith "Fr" l = false) (hR : lineStartsWith "R" l = false)
    (hI : lineStartsWith "I" l = false) (hq : "\"" ≠ l) :
    countLine l (st.out ++ headerText ++ axesDefinition ++ frameBlocks env st poly 0 n) =
      countLine l headerText + countLine l axesDefinition
        + n * (List.count l (fixedFrameLines st.use_axis_lights st.render_axes)
            + countLine l poly) :=
  countLine_output l env st poly n cs hfmt hax hpoly hout
    (fun i => frameBegin_ne l hFr i) (fun _ => rotate_ne l hR _ _)
    (fun c => invalidOption_ne l hI c) (ne_of_start "I" _ l rfl hI) hq

/-! ## An unknown flag among the arguments -/

theorem insertedLine_cout {F : Type} (a line w : String) (s s0 : State F)
    (h : InsertedLine a line s s0) : InsertedLine a line (s.cout w) (s0.cout w) := by
  obtain ⟨h1, h2, h3, h4, h5, h6, b, hb1, hb2⟩ := h
  refine ⟨h1, h2, h3, h4, h5, h6, b ++ w, ?_, ?_⟩
  · show s0.out ++ w = _
    rw [hb1, String.append_assoc]
  · show s.out ++ w = _
    rw [hb2, String.append_assoc]

theorem insertedLine_cerr {F : Type} (a line m : String) (s s0 : State F)
    (h : InsertedLine a line s s0) : InsertedLine a line (s.cerr m) (s0.cerr m) := by
  obtain ⟨h1, h2, h3, h4, h5, h6, hb⟩ := h
  refine ⟨h1, h2, h3, h4, h5, ?_, hb⟩
  show s.err ++ m = s0.err ++ m
  rw [h6]

theorem insertedLine_max_frames {F : Type} (a line : String) (v : Nat) (s s0 : State F)
    (h : InsertedLine a line s s0) :
    InsertedLine a line { s with max_frames := v } { s0 with max_frames := v } := by
  obtain ⟨h1, h2, h3, h4, _, h6, hb⟩ := h
  exact ⟨h1, h2, h3, h4, rfl, h6, hb⟩

theorem insertedLine_axis {F : Type} (a line : String) (v : Char) (s s0 : State F)
    (h : InsertedLine a line s s0) :
    InsertedLine a line { s with axis := v } { s0 with axis := v } := by
  obtain ⟨h1, h2, _, h4, h5, h6, hb⟩ := h
  exact ⟨h1, h2, rfl, h4, h5, h6, hb⟩

theorem insertedLine_velocity {F : Type} (a line : String) (v : F) (s s0 : State F)
    (h : InsertedLine a line s s0) :
    InsertedLine a line { s with velocity := v } { s0 with velocity := v } := by
  obtain ⟨h1, h2, h3, _, h5, h6, hb⟩ := h
  exact ⟨h1, h2, h3, rfl, h5, h6, hb⟩

theorem insertedLine_render_axes {F : Type} (a line : String) (v : Bool) (s s0 : State F)
    (h : InsertedLine a line s s0) :
    InsertedLine a line { s with render_axes := v } { s0 with render_axes := v } := by
  obtain ⟨h1, _, h3, h4, h5, h6, hb⟩ := h
  exact ⟨h1, rfl, h3, h4, h5, h6, hb⟩

theorem insertedLine_use_axis_lights {F : Type} (a line : String) (v : Bool) (s s0 : State F)
    (h : InsertedLine a line s s0) :
    InsertedLine a line { s with use_axis_lights := v } { s0 with use_axis_lights := v } := by
  obtain ⟨_, h2, h3, h4, h5, h6, hb⟩ := h
  exact ⟨rfl, h2, h3, h4, h5, h6, hb⟩

/-- One pass of the loop of `check_opts` takes states that agree but for one
line on standard output to outcomes that do. -/
theorem check_opts_body_inserted {F : Type} (env : Env F) (token : String)
    (rest : List String) (a line : String) (s s0 : State F)
    (h : InsertedLine a line s s0) :
    OutcomeInserted a line (check_opts_body env token rest s)
      (check_opts_body env token rest s0) := by
  unfold check_opts_body
  split_ifs with h0 hf ha hl hr hv
  · cases rest with
    | nil => exact ⟨rfl, insertedLine_cerr _ _ _ _ _ h⟩
    | cons next tl =>
      dsimp only
      split_ifs with hz
      · exact ⟨rfl, insertedLine_cerr _ _ _ _ _ (insertedLine_max_frames _ _ _ _ _ h)⟩
      · exact insertedLine_max_frames _ _ _ _ _ h
  · exact insertedLine_render_axes _ _ _ _ _ h
  · exact insertedLine_use_axis_lights _ _ _ _ _ h
  · cases rest with
    | nil => exact ⟨rfl, insertedLine_cerr _ _ _ _ _ h⟩
    | cons next tl =>
      dsimp only
      split_ifs with hz
      · exact ⟨rfl, insertedLine_cerr _ _ _ _ _ (insertedLine_axis _ _ _ _ _ h)⟩
      · exact insertedLine_axis _ _ _ _ _ h
  · cases rest with
    | nil => exact ⟨rfl, insertedLine_cerr _ _ _ _ _ h⟩
    | cons next tl => exact insertedLine_velocity _ _ _ _ _ h
  · exact insertedLine_cout _ _ _ _ _ h
  · exact h

/-- The loop of `check_opts` takes states that agree but for one line on
standard output to outcomes that do. -/
theorem check_opts_from_inserted {F : Type} (env : Env F) (a line : String)
    (argv : List String) : ∀ (s s0 : State F), InsertedLine a line s s0 →
      OutcomeInserted a line (check_opts_from env argv s) (check_opts_from env argv s0) := by
  induction argv with
  | nil => intro s s0 h; exact h
  | cons token rest ih =>
    intro s s0 h
    have hb := check_opts_body_inserted env token rest a line s s0 h
    unfold check_opts_from
    cases h1 : check_opts_body env token rest s with
    | returned s1 =>
      cases h2 : check_opts_body env token rest s0 with
      | returned s2 =>
        rw [h1, h2] at hb
        exact ih s1 s2 hb
      | exited m s2 =>
        rw [h1, h2] at hb
        exact absurd hb (by simp [OutcomeInserted])
    | exited n s1 =>
      cases h2 : check_opts_body env token rest s0 with
      | returned s2 =>
        rw [h1, h2] at hb
        exact absurd hb (by simp [OutcomeInserted])
      | exited m s2 =>
        rw [h1, h2] at hb
        exact hb

/-- The pass of the loop over an unknown flag only writes its report to
standard output. -/
theorem check_opts_body_unknown {F : Type} (env : Env F) (u : String) (rest : List String)
    (st : State F) (hu : isUnknownFlag u = true) :
    check_opts_body env u rest st = .returned (st.cout (invalidOptionLine (charAt u 1))) := by
  unfold isUnknownFlag at hu
  simp only [Bool.and_eq_true, decide_eq_true_eq, ne_eq, decide_not,
    Bool.not_eq_true', decide_eq_false_iff_not] at hu
  obtain ⟨⟨⟨⟨⟨h0, hf⟩, ha⟩, hl⟩, hr⟩, hv⟩ := hu
  unfold check_opts_body
  rw [if_pos h0, if_neg hf, if_neg ha, if_neg hl, if_neg hr, if_neg hv]
  rfl

/-- The pass of the loop over a token that takes no value does not depend on
the tokens after it. -/
theorem check_opts_body_no_value {F : Type} (env : Env F) (t : String)
    (rest rest2 : List String) (st : State F) (ht : takesValue t = false) :
    check_opts_body env t rest st = check_opts_body env t rest2 st := by
  unfold takesValue at ht
  unfold check_opts_body
  split_ifs with h0 hf ha hl hr hv
  · simp [h0, hf] at ht
  · rfl
  · rfl
  · simp [h0, hr] at ht
  · simp [h0, hv] at ht
  · rfl
  · rfl

/-- The pass of the loop over a token looks at the next token only. -/
theorem check_opts_body_next {F : Type} (env : Env F) (t next : String)
    (tl tl2 : List String) (st : State F) :
    check_opts_body env t (next :: tl) st = check_opts_body env t (next :: tl2) st := rfl

/-- An unknown flag put in among the arguments, not directly after a token
that takes a value, changes the outcome of `check_opts` in one way at most:
its report appears on standard output. -/
theorem check_opts_from_insert {F : Type} (env : Env F) (u : String) (post : List String)
    (hu : isUnknownFlag u = true) (pre : List String) :
    ∀ (st : State F), (∀ t, pre.getLast? = some t → takesValue t = false) →
      check_opts_from env (pre ++ u :: post) st = check_opts_from env (pre ++ post) st
        ∨ ∃ a, OutcomeInserted a (invalidOptionLine (charAt u 1))
            (check_opts_from env (pre ++ u :: post) st)
            (check_opts_from env (pre ++ post) st) := by
  induction pre with
  | nil =>
    intro st _
    right
    refine ⟨st.out, ?_⟩
    rw [List.nil_append, List.nil_append, check_opts_from_step env u post st _
      (check_opts_body_unknown env u post st hu)]
    apply check_opts_from_inserted
    exact ⟨rfl, rfl, rfl, rfl, rfl, rfl, "", (String.append_empty _).symm,
      (String.append_empty _).symm⟩
  | cons t pre2 ih =>
    intro st hlast
    have hbody : check_opts_body env t (pre2 ++ u :: post) st
        = check_opts_body env t (pre2 ++ post) st := by
      cases pre2 with
      | nil => exact check_opts_body_no_value env t _ _ st (hlast t rfl)
      | cons t2 tl => exact check_opts_body_next env t t2 _ _ st
    have hlast2 : ∀ t', pre2.getLast? = some t' → takesValue t' = false := by
      intro t' ht'
      cases pre2 with
      | nil => simp at ht'
      | cons t2 tl =>
        apply hlast t'
        rw [List.getLast?_cons_cons]
        exact ht'
    rw [List.cons_append, List.cons_append, check_opts_from, check_opts_from, hbody]
    cases check_opts_body env t (pre2 ++ post) st with
    | returned s1 => exact ih s1 hlast2
    | exited n s1 => exact Or.inl rfl

/-! ## The first fatal error of `check_opts` -/

/-- The pass of the loop over a token returns when the next token is a value
that is accepted after it. -/
theorem check_opts_body_accepted {F : Type} (env : Env F) (token next : String)
    (tl : List String) (st : State F) (h : valueAccepted env token next = true) :
    ∃ s, check_opts_body env token (next :: tl) st = .returned s := by
  unfold valueAccepted at h
  unfold check_opts_body
  split_ifs with h0 hf ha hl hr hv
  · rw [if_pos h0, if_pos hf] at h
    have h1 : 1 ≤ toUnsigned (atoi env next) := of_decide_eq_true h
    dsimp only
    rw [if_neg (by omega)]
    exact ⟨_, rfl⟩
  · exact ⟨_, rfl⟩
  · exact ⟨_, rfl⟩
  · rw [if_pos h0, if_neg hf, if_pos hr] at h
    have h1 : toupper (charAt next 0) = 'X' ∨ toupper (charAt next 0) = 'Y' :=
      of_decide_eq_true h
    dsimp only
    rw [if_neg (by
      intro hc
      rcases h1 with e | e
      · exact hc.1 e
      · exact hc.2 e)]
    exact ⟨_, rfl⟩
  · exact ⟨_, rfl⟩
  · exact ⟨_, rfl⟩
  · exact ⟨_, rfl⟩

/-- The pass of the loop over a token exits when the next token is a value
that is not accepted after it. -/
theorem check_opts_body_rejected {F : Type} (env : Env F) (token next : String)
    (tl : List String) (st : State F) (h : valueAccepted env token next = false) :
    ∃ n s, check_opts_body env token (next :: tl) st = .exited n s := by
  unfold valueAccepted at h
  unfold check_opts_body
  split_ifs with h0 hf ha hl hr hv
  · rw [if_pos h0, if_pos hf] at h
    have h1 : ¬(1 ≤ toUnsigned (atoi env next)) := of_decide_eq_false h
    dsimp only
    rw [if_pos (by omega)]
    exact ⟨_, _, rfl⟩
  · rw [if_pos h0, if_neg hf, if_neg (by rw [ha]; decide)] at h
    exact absurd h (by decide)
  · rw [if_pos h0, if_neg hf, if_neg (by rw [hl]; decide)] at h
    exact absurd h (by decide)
  · rw [if_pos h0, if_neg hf, if_pos hr] at h
    have h1 : ¬(toupper (charAt next 0) = 'X' ∨ toupper (charAt next 0) = 'Y') :=
      of_decide_eq_false h
    dsimp only
    rw [if_pos ⟨fun e => h1 (Or.inl e), fun e => h1 (Or.inr e)⟩]
    exact ⟨_, _, rfl⟩
  · rw [if_pos h0, if_neg hf, if_neg hr] at h
    exact absurd h (by decide)
  · rw [if_pos h0, if_neg hf, if_neg hr] at h
    exact absurd h (by decide)
  · rw [if_neg h0] at h
    exact absurd h (by decide)

theorem valuesAccepted_cons {F : Type} (env : Env F) (token next : String)
    (rest : List String) :
    valuesAccepted env (token :: next :: rest) =
      (valueAccepted env token next && valuesAccepted env (next :: rest)) := rfl

/-- When the last token is `-f`, `-r` or `-v`, `check_opts` exits with `-1`,
and the message it leaves reports a missing argument if every value before
was accepted, an invalid argument if not. -/
theorem check_opts_from_last_flag_kind {F : Type} (env : Env F) (t : String)
    (ht : isValueFlag t = true) (argv : List String) :
    ∀ (st : State F), argv.getLast? = some t →
      ∃ st1 m, check_opts_from env argv st = .exited (-1) st1 ∧ st1.err = st.err ++ m
        ∧ errorKind m = some (if valuesAccepted env argv = true then ErrorKind.MissingArgument
            else ErrorKind.InvalidArgument) := by
  induction argv with
  | nil => intro st h; simp at h
  | cons token rest ih =>
    intro st h
    cases rest with
    | nil =>
      have htok : token = t := by simpa using h
      subst htok
      obtain ⟨st1, h1⟩ := check_opts_body_last env token st ht
      obtain ⟨_, _, m, hm, hkind⟩ := check_opts_body_exited env token [] st st1 (-1) h1
      refine ⟨st1, m, ?_, hm, ?_⟩
      · rw [check_opts_from, h1]
      · rcases hkind with ⟨_, hk⟩ | ⟨hne, _⟩
        · rw [hk]
          rfl
        · exact absurd rfl hne
    | cons t2 tl =>
      have h2 : (t2 :: tl).getLast? = some t := by
        rw [List.getLast?_cons_cons] at h
        exact h
      rw [valuesAccepted_cons]
      cases hv : valueAccepted env token t2 with
      | true =>
        obtain ⟨s, hs⟩ := check_opts_body_accepted env token t2 tl st hv
        obtain ⟨he, _, _, _⟩ := check_opts_body_returned env token (t2 :: tl) st s hs
        obtain ⟨st1, m, h1, hm, hkind⟩ := ih s h2
        refine ⟨st1, m, ?_, by rw [hm, he], ?_⟩
        · rw [check_opts_from_step env token (t2 :: tl) st s hs]
          exact h1
        · rw [Bool.true_and]
          exact hkind
      | false =>
        obtain ⟨n, s, hs⟩ := check_opts_body_rejected env token t2 tl st hv
        obtain ⟨hn, _, m, hm, hkind⟩ := check_opts_body_exited env token (t2 :: tl) st s n hs
        subst hn
        refine ⟨s, m, ?_, hm, ?_⟩
        · rw [check_opts_from, hs]
        · rcases hkind with ⟨hnil, _⟩ | ⟨_, hk⟩
          · exact absurd hnil (by simp)
          · rw [hk]
            rfl

/-- The "Invalid option" lines hold no line that begins with `FrameBegin`. -/
theorem linesStarting_frameBegin_invalidOptionLines (cs : List Char) :
    linesStarting "FrameBegin" (invalidOptionLines cs) = [] := by
  unfold linesStarting invalidOptionLines
  rw [textLines_concat _ (by
    intro p hp
    obtain ⟨c, _, rfl⟩ := List.mem_map.mp hp
    exact lineComplete_line _)]
  rw [List.filter_eq_nil_iff]
  intro l hl
  obtain ⟨p, hp, hlp⟩ := List.mem_flatMap.mp hl
  obtain ⟨c, _, rfl⟩ := List.mem_map.mp hp
  by_cases hc : c = '\n'
  · subst hc
    have ht : textLines (invalidOptionLine '\n') = ["Invalid option \"", "\""] := by decide
    rw [ht] at hlp
    simp only [List.mem_cons, List.mem_singleton, List.not_mem_nil, or_false] at hlp
    rcases hlp with rfl | rfl <;> decide
  · unfold invalidOptionLine at hlp
    rw [textLines_line _ (by
      simp only [String.data_append]
      intro h
      rcases List.mem_append.mp h with e | e
      · rcases List.mem_append.mp e with e | e
        · exact absurd e (by decide)
        · have : '\n' = c := by simpa [String.singleton] using e
          exact hc this.symm
      · exact absurd e (by decide))] at hlp
    rw [List.mem_singleton] at hlp
    subst hlp
    have : lineStartsWith "FrameBegin"
        ("Invalid option \"" ++ String.singleton c ++ "\"") = false := rfl
    rw [this]
    exact Bool.false_ne_true

/-! ## The run in terms of what the loop body writes -/

/-- The whole run, as `main_run`, with every frame block given as the text
that the loop body writes for its counter value. -/
theorem main_run_bodies {F : Type} (env : Env F) (fs : String → Option String) (fuel : Nat)
    (argv : List String) (st : State F)
    (hargc : 2 ≤ argv.length)
    (hopts : check_opts env argv (State.init env) = .returned st)
    (hfuel : st.max_frames < fuel)
    (hfile : ∀ c, fs (argv.getD 1 "") = some c → c.length < fuel) :
    main env fs fuel argv =
      some (.exited 0 { st with
        out := st.out ++ headerText ++ axesDefinition
          ++ concat ((List.range' 0 st.max_frames).map (fun (k : Nat) =>
              (frame_body env (blobOf fs (argv.getD 1 "")) (toInt32 (k : Int))
                { st with out := "" }).out))
        err := st.err ++ openWarning fs (argv.getD 1 "") }) := by
  rw [main_run env fs fuel argv st hargc hopts (check_opts_max_frames env argv st hopts).2
    hfuel hfile]
  unfold frameBlocks
  have hfun : (fun (k : Nat) => (frame_body env (blobOf fs (argv.getD 1 ""))
      (toInt32 (k : Int)) { st with out := "" }).out)
      = (fun (k : Nat) => frameBlock env st (blobOf fs (argv.getD 1 "")) (toInt32 (k : Int))) :=
    funext (fun k => frame_body_text env _ (toInt32 (k : Int)) st)
  rw [hfun]

/-- Without a `-f` token the frame limit stays `UINT_MAX`, and the loop is
still running at each of its first `INT_MAX + 1` tests, none of which comes
after an overflow of the counter. -/
theorem frame_loop_default_running {F : Type} (env : Env F) (argv : List String)
    (st : State F)
    (hno : ∀ t ∈ argv, ¬(charAt t 0 = '-' ∧ charAt t 1 = 'f'))
    (hopts : check_opts env argv (State.init env) = .returned st) :
    st.max_frames = UINT_MAX
      ∧ ∀ (poly : String) (s : State F) (k : Nat), s.max_frames = st.max_frames →
          (k : Int) ≤ INT_MAX → frame_loop env poly (k + 1) 0 s = none := by
  have hmax : st.max_frames = UINT_MAX :=
    check_opts_from_no_f env argv (State.init env) st hno hopts
  refine ⟨hmax, ?_⟩
  intro poly s k hs hk
  rw [hmax] at hs
  have h := frame_loop_running env poly (k + 1) 0 UINT_MAX s (by omega)
    (by unfold UINT_MAX; omega) (by unfold UINT_MAX; unfold INT_MAX at hk; omega)
  rw [toInt32_zero] at h
  exact h

/-! ## The claims -/

/-- C1: when `-f` has set the frame limit to `N` with `1 ≤ N ≤ INT_MAX`, the
run writes, after the preamble, exactly the `N` frame blocks with indices
`0, 1, ..., N-1` in that order, every block opening with its `FrameBegin`
line, and then returns `0`. -/
theorem C1_frame_limit_emits_N_blocks {F : Type} (env : Env F) (fs : String → Option String)
    (fuel : Nat) (argv : List String) (st : State F) (N : Nat)
    (hargc : 2 ≤ argv.length)
    (hopts : check_opts env argv (State.init env) = .returned st)
    (hN : st.max_frames = N) (h1 : 1 ≤ N) (h2 : (N : Int) ≤ INT_MAX)
    (hfuel : N < fuel)
    (hfile : ∀ c, fs (argv.getD 1 "") = some c → c.length < fuel) :
    main env fs fuel argv =
        some (.exited 0 { st with
          out := st.out ++ headerText ++ axesDefinition
            ++ concat ((List.range N).map
                (fun (i : Nat) => frameBlock env st (blobOf fs (argv.getD 1 "")) (i : Int)))
          err := st.err ++ openWarning fs (argv.getD 1 "") })
      ∧ ∀ (poly : String) (i : Nat), ∃ rest : String,
          frameBlock env st poly (i : Int) = "FrameBegin " ++ toString i ++ "\n" ++ rest := by
  constructor
  · have hlt : st.max_frames < 4294967296 := by unfold INT_MAX at h2; omega
    rw [main_run env fs fuel argv st hargc hopts hlt (by omega) hfile, hN,
      frameBlocks_small env st _ N h2]
  · intro poly i
    exact ⟨_, rfl⟩

/-- C1, witness: the flags `-f 3 -a -v 2.0` on a one-line file give the three
frame blocks 0, 1, 2 with `Rotate "Z"` angles 0, 2, 4, each with the axes
reference and the single line `AmbientLight 1 1 1 1`. -/
theorem C1_frame_limit_emits_N_blocks_witness :
    main decimalEnv (oneFile "Cube") 5 ["turntable", "in.rd", "-f", "3", "-a", "-v", "2.0"] =
      some (.exited 0
        { use_axis_lights := false, render_axes := true, axis := 'Z', velocity := 2000,
          max_frames := 3, err := "",
          out := concat
            [ headerText, axesDefinition,
              "FrameBegin 0\nWorldBegin\nAmbientLight 1 1 1 1\nKa 0.5\nKd 1\n",
              "ObjectInstance \"Axes\"\nRotate \"Z\" 0\nCube\nWorldEnd\nFrameEnd\n",
              "FrameBegin 1\nWorldBegin\nAmbientLight 1 1 1 1\nKa 0.5\nKd 1\n",
              "ObjectInstance \"Axes\"\nRotate \"Z\" 2\nCube\nWorldEnd\nFrameEnd\n",
              "FrameBegin 2\nWorldBegin\nAmbientLight 1 1 1 1\nKa 0.5\nKd 1\n",
              "ObjectInstance \"Axes\"\nRotate \"Z\" 4\nCube\nWorldEnd\nFrameEnd\n" ] }) :=
  (C1_frame_limit_emits_N_blocks decimalEnv (oneFile "Cube") 5
    ["turntable", "in.rd", "-f", "3", "-a", "-v", "2.0"]
    { use_axis_lights := false, render_axes := true, axis := 'Z', velocity := 2000,
      max_frames := 3, out := "", err := "" } 3
    (by decide) (by rfl) (by rfl) (by decide) (by decide) (by decide)
    (by intro c h; cases h; decide)).1.trans (by rfl)

/-- C3, counterexample: the token `3x`, a number followed by trailing junk,
is not the text of an integer, yet `-f 3x` is accepted and sets the frame
limit to 3. -/
theorem C3_frame_limit_token_counterexample :
    isIntegerText "3x" = false
      ∧ check_opts decimalEnv ["turntable", "in.rd", "-f", "3x"] (State.init decimalEnv)
          = .returned { State.init decimalEnv with max_frames := 3 } :=
  ⟨by decide, by rfl⟩

/-- C3 (amended): for a token `t` after `-f` whose leading integer, as `atoi`
reads it (white space, sign and digits at the head of the token; `0` when
there are none), lies between `0` and `INT_MAX`: when that value is `0`,
`check_opts` fails with the InvalidArgument message "Invalid frame count!"
and status `-1`; otherwise it succeeds and the frame limit is that value,
whatever follows the digits.  This holds for the pass of the loop over `-f`
in any state and with any tokens after `t`, and so for the arguments
`prog file -f t`. -/
theorem C3_frame_limit_token {F : Type} (env : Env F) (prog file t : String)
    (hp : charAt prog 0 ≠ '-') (hf : charAt file 0 ≠ '-')
    (h0 : 0 ≤ atoi_value t) (h1 : atoi_value t ≤ INT_MAX) :
    (∀ (tl : List String) (st : State F),
        check_opts_body env "-f" (t :: tl) st =
          if atoi_value t = 0 then
            .exited (-1) { st with max_frames := 0, err := st.err ++ "Invalid frame count!\n" }
          else .returned { st with max_frames := (atoi_value t).toNat })
      ∧ check_opts env [prog, file, "-f", t] (State.init env) =
        (if atoi_value t = 0 then
          .exited (-1) { State.init env with max_frames := 0, err := "Invalid frame count!\n" }
        else .returned { State.init env with max_frames := (atoi_value t).toNat })
      ∧ errorKind "Invalid frame count!\n" = some .InvalidArgument := by
  have hat := atoi_in_range env t (by unfold INT_MIN; omega) h1
  have hu := toUnsigned_nonneg (atoi_value t) h0 h1
  refine ⟨?_, ?_, by decide⟩
  · intro tl st
    rw [check_opts_body_f, hat, hu]
    by_cases hz : atoi_value t = 0
    · rw [if_pos hz, if_pos (by omega)]
      simp only [hz]
      rfl
    · rw [if_neg hz, if_neg (by omega)]
  · unfold check_opts
    rw [check_opts_from_plain env prog _ _ hp, check_opts_from_plain env file _ _ hf,
      check_opts_from, check_opts_body_f, hat, hu]
    by_cases hz : atoi_value t = 0
    · rw [if_pos hz, if_pos (by omega)]
      simp only [hz]
      rfl
    · rw [if_neg hz, if_neg (by omega)]
      have ht : charAt t 0 ≠ '-' := by
        intro hc
        have := atoi_value_flag t hc
        omega
      simp only
      rw [check_opts_from_plain env t _ _ ht]
      rfl

/-- C3 (amended), witness: `-f 12` sets the limit to 12, `-f abc` is
rejected. -/
theorem C3_frame_limit_token_witness :
    (check_opts decimalEnv ["turntable", "in.rd", "-f", "12"] (State.init decimalEnv)
        = .returned { State.init decimalEnv with max_frames := 12 })
      ∧ (check_opts decimalEnv ["turntable", "in.rd", "-f", "abc"] (State.init decimalEnv)
        = .exited (-1)
            { State.init decimalEnv with max_frames := 0, err := "Invalid frame count!\n" }) :=
  ⟨(C3_frame_limit_token decimalEnv "turntable" "in.rd" "12" (by decide) (by decide)
      (by decide) (by decide)).2.1.trans (by rfl),
   (C3_frame_limit_token decimalEnv "turntable" "in.rd" "abc" (by decide) (by decide)
      (by decide) (by decide)).2.1.trans (by rfl)⟩

/-- C4, counterexample: the token `Xyz` is longer than one letter and is not,
in any case, the token `X` or `Y`, yet `-r Xyz` is accepted and sets the axis
to `X`. -/
theorem C4_axis_token_counterexample :
    isAxisToken "Xyz" = false
      ∧ check_opts decimalEnv ["turntable", "in.rd", "-r", "Xyz"] (State.init decimalEnv)
          = .returned { State.init decimalEnv with axis := 'X' } :=
  ⟨by decide, by rfl⟩

/-- C4 (amended): for a token `t` after `-r`, `check_opts` looks at the first
character of `t` only.  When it is `x` or `X` the axis becomes `X`, when it
is `y` or `Y` the axis becomes `Y`, whatever follows in the token; for every
other first character (`Z` and the empty token among them) `check_opts`
fails with the InvalidArgument message "Invalid axis for -r!" and status
`-1`.  This holds for the pass of the loop over `-r` in any state and with
any tokens after `t`, and so for the arguments `prog file -r t`. -/
theorem C4_axis_token {F : Type} (env : Env F) (prog file t : String)
    (hp : charAt prog 0 ≠ '-') (hf : charAt file 0 ≠ '-') :
    (∀ (tl : List String) (st : State F),
        check_opts_body env "-r" (t :: tl) st =
          if charAt t 0 = 'x' ∨ charAt t 0 = 'X' then .returned { st with axis := 'X' }
          else if charAt t 0 = 'y' ∨ charAt t 0 = 'Y' then .returned { st with axis := 'Y' }
          else
            .exited (-1)
              { st with axis := toupper (charAt t 0), err := st.err ++ "Invalid axis for -r!" })
      ∧ check_opts env [prog, file, "-r", t] (State.init env) =
        (if charAt t 0 = 'x' ∨ charAt t 0 = 'X' then
          .returned { State.init env with axis := 'X' }
        else if charAt t 0 = 'y' ∨ charAt t 0 = 'Y' then
          .returned { State.init env with axis := 'Y' }
        else
          .exited (-1)
            { State.init env with axis := toupper (charAt t 0), err := "Invalid axis for -r!" })
      ∧ errorKind "Invalid axis for -r!" = some .InvalidArgument := by
  have hbody : ∀ (tl : List String) (st : State F),
      check_opts_body env "-r" (t :: tl) st =
        if charAt t 0 = 'x' ∨ charAt t 0 = 'X' then .returned { st with axis := 'X' }
        else if charAt t 0 = 'y' ∨ charAt t 0 = 'Y' then .returned { st with axis := 'Y' }
        else
          .exited (-1)
            { st with axis := toupper (charAt t 0), err := st.err ++ "Invalid axis for -r!" } := by
    intro tl st
    rw [check_opts_body_r]
    by_cases hx : charAt t 0 = 'x' ∨ charAt t 0 = 'X'
    · have hX := (toupper_eq_X (charAt t 0)).mpr hx
      rw [if_pos hx, if_neg (by rw [hX]; decide), hX]
    · by_cases hy : charAt t 0 = 'y' ∨ charAt t 0 = 'Y'
      · have hY := (toupper_eq_Y (charAt t 0)).mpr hy
        rw [if_neg hx, if_pos hy, if_neg (by rw [hY]; decide), hY]
      · have hX : toupper (charAt t 0) ≠ 'X' := fun h => hx ((toupper_eq_X _).mp h)
        have hY : toupper (charAt t 0) ≠ 'Y' := fun h => hy ((toupper_eq_Y _).mp h)
        rw [if_neg hx, if_neg hy, if_pos ⟨hX, hY⟩]
  refine ⟨hbody, ?_, by decide⟩
  unfold check_opts
  rw [check_opts_from_plain env prog _ _ hp, check_opts_from_plain env file _ _ hf,
    check_opts_from, hbody]
  by_cases hx : charAt t 0 = 'x' ∨ charAt t 0 = 'X'
  · have ht : charAt t 0 ≠ '-' := by
      rcases hx with h | h <;> rw [h] <;> decide
    rw [if_pos hx, if_pos hx]
    simp only
    rw [check_opts_from_plain env t _ _ ht]
    rfl
  · by_cases hy : charAt t 0 = 'y' ∨ charAt t 0 = 'Y'
    · have ht : charAt t 0 ≠ '-' := by
        rcases hy with h | h <;> rw [h] <;> decide
      rw [if_neg hx, if_pos hy, if_neg hx, if_pos hy]
      simp only
      rw [check_opts_from_plain env t _ _ ht]
      rfl
    · rw [if_neg hx, if_neg hy, if_neg hx, if_neg hy]
      rfl

/-- C4 (amended), witness: `-r yaw` sets the axis to `Y`, `-r Z` is
rejected. -/
theorem C4_axis_token_witness :
    (check_opts decimalEnv ["turntable", "in.rd", "-r", "yaw"] (State.init decimalEnv)
        = .returned { State.init decimalEnv with axis := 'Y' })
      ∧ (check_opts decimalEnv ["turntable", "in.rd", "-r", "Z"] (State.init decimalEnv)
        = .exited (-1) { State.init decimalEnv with err := "Invalid axis for -r!" }) :=
  ⟨(C4_axis_token decimalEnv "turntable" "in.rd" "yaw" (by decide) (by decide)).2.1.trans
      (by rfl),
   (C4_axis_token decimalEnv "turntable" "in.rd" "Z" (by decide) (by decide)).2.1.trans
      (by rfl)⟩

/-- C5, counterexample: the arguments `turntable in.rd -f 0 -r` end in `-r`,
but the run fails on `-f 0` first, with the InvalidArgument message "Invalid
frame count!" and not with MissingArgument. -/
theorem C5_trailing_value_flag_counterexample :
    isValueFlag "-r" = true
      ∧ check_opts decimalEnv ["turntable", "in.rd", "-f", "0", "-r"] (State.init decimalEnv)
          = .exited (-1)
              { State.init decimalEnv with max_frames := 0, err := "Invalid frame count!\n" }
      ∧ errorKind "Invalid frame count!\n" ≠ some .MissingArgument :=
  ⟨by decide, by rfl, by decide⟩

/-- C5 (amended): when the last token is `-f`, `-r` or `-v`, `check_opts` exits
with status `-1`.  The message on the error stream reports a missing argument
when every token before has a value after it that `check_opts` accepts, and
otherwise an invalid argument, from the first `-f` or `-r` whose value is
bad.  No line of standard output begins with `FrameBegin`, so no frame block
has been written; and `main`, given at least two arguments, ends in that same
exit whatever the fuel. -/
theorem C5_trailing_value_flag {F : Type} (env : Env F) (fs : String → Option String)
    (fuel : Nat) (argv : List String) (t : String)
    (hlast : argv.getLast? = some t) (hflag : isValueFlag t = true) :
    ∃ st, check_opts env argv (State.init env) = .exited (-1) st
      ∧ errorKind st.err = some (if valuesAccepted env argv = true
          then ErrorKind.MissingArgument else ErrorKind.InvalidArgument)
      ∧ linesStarting "FrameBegin" st.out = []
      ∧ (2 ≤ argv.length → main env fs fuel argv = some (.exited (-1) st)) := by
  obtain ⟨st, m, hst, herr, hkind⟩ :=
    check_opts_from_last_flag_kind env t hflag argv (State.init env) hlast
  obtain ⟨_, ⟨cs, hout⟩, _⟩ := check_opts_from_exited env argv (State.init env) st (-1) hst
  have herr2 : st.err = m := by
    rw [herr]
    exact String.empty_append m
  have hout2 : st.out = invalidOptionLines cs := by
    rw [hout]
    exact String.empty_append _
  refine ⟨st, hst, by rw [herr2]; exact hkind, ?_, ?_⟩
  · rw [hout2]
    exact linesStarting_frameBegin_invalidOptionLines cs
  · intro hargc
    unfold main
    rw [if_neg (by omega)]
    have hst2 : check_opts env argv (State.init env) = .exited (-1) st := hst
    rw [hst2]

/-- C5 (amended), witness: on `turntable in.rd -v 2 -r` every value before the
last token is accepted and the error is the missing argument of `-r`; on
`turntable in.rd -r q -v` the value of `-r` is bad and the error is an
invalid argument. -/
theorem C5_trailing_value_flag_witness :
    (∃ st, check_opts decimalEnv ["turntable", "in.rd", "-v", "2", "-r"] (State.init decimalEnv)
          = .exited (-1) st
        ∧ errorKind st.err = some ErrorKind.MissingArgument
        ∧ linesStarting "FrameBegin" st.out = []
        ∧ (2 ≤ ["turntable", "in.rd", "-v", "2", "-r"].length →
            main decimalEnv (oneFile "") 0 ["turntable", "in.rd", "-v", "2", "-r"]
              = some (.exited (-1) st)))
      ∧ (∃ st, check_opts decimalEnv ["turntable", "in.rd", "-r", "q", "-v"]
            (State.init decimalEnv) = .exited (-1) st
        ∧ errorKind st.err = some ErrorKind.InvalidArgument
        ∧ linesStarting "FrameBegin" st.out = []
        ∧ (2 ≤ ["turntable", "in.rd", "-r", "q", "-v"].length →
            main decimalEnv (oneFile "") 0 ["turntable", "in.rd", "-r", "q", "-v"]
              = some (.exited (-1) st))) :=
  ⟨C5_trailing_value_flag decimalEnv (oneFile "") 0 ["turntable", "in.rd", "-v", "2", "-r"] "-r"
      (by rfl) (by decide),
   C5_trailing_value_flag decimalEnv (oneFile "") 0 ["turntable", "in.rd", "-r", "q", "-v"] "-v"
      (by rfl) (by decide)⟩

/-- C6, run at the failing input: for `turntable in.rd -x -f` the run ends in
the fatal error of a missing `-f` value with status `-1`, and by then the
line `Invalid option "x"` has been written to standard output. -/
theorem C6_output_before_fatal_error :
    main decimalEnv (oneFile "") 0 ["turntable", "in.rd", "-x", "-f"] =
        some (.exited (-1)
          { State.init decimalEnv with
            out := "Invalid option \"x\"\n"
            err := "Must specify unsigned integer for -f!" })
      ∧ errorKind "Must specify unsigned integer for -f!" = some .MissingArgument
      ∧ "Invalid option \"x\"\n" ≠ "" :=
  ⟨by rfl, by decide, by decide⟩

/-- C7, counterexample: without `-a` the flag `render_axes` is off, and yet the
run writes the axes definition right after the header: its opening line
occurs once on standard output. -/
theorem C7_axes_definition_counterexample :
    main decimalEnv (oneFile "") 2 ["turntable", "in.rd", "-f", "1"] =
        some (.exited 0
          { State.init decimalEnv with
            max_frames := 1
            out := headerText ++ axesDefinition
              ++ "FrameBegin 0\nWorldBegin\nAmbientLight 1 1 1 1\nKa 0.5\nKd 1\nRotate \"Z\" 0\n\nWorldEnd\nFrameEnd\n" })
      ∧ (State.init decimalEnv).render_axes = false
      ∧ countLine axesBeginLine (headerText ++ axesDefinition
          ++ "FrameBegin 0\nWorldBegin\nAmbientLight 1 1 1 1\nKa 0.5\nKd 1\nRotate \"Z\" 0\n\nWorldEnd\nFrameEnd\n")
          = 1 :=
  ⟨by rfl, by rfl, by decide⟩

/-- C7 (amended): in every run that reaches the animation loop the axes
definition block is written once, right after the header and before the
first frame block, whether `render_axes` is on or off.  Whatever the number
of frames, the line `ObjectBegin "Axes"` then occurs on standard output once
outside the blob: once, plus its occurrences in the blob for each of the
frame blocks.  The text of a formatted angle is assumed to hold no newline. -/
theorem C7_axes_definition_once {F : Type} (env : Env F) (fs : String → Option String)
    (fuel : Nat) (argv : List String) (st : State F)
    (hargc : 2 ≤ argv.length)
    (hopts : check_opts env argv (State.init env) = .returned st)
    (hfuel : st.max_frames < fuel)
    (hfile : ∀ c, fs (argv.getD 1 "") = some c → c.length < fuel)
    (hfmt : ∀ x, '\n' ∉ (env.fmt x).data) :
    main env fs fuel argv =
        some (.exited 0 { st with
          out := st.out ++ headerText ++ axesDefinition
            ++ frameBlocks env st (blobOf fs (argv.getD 1 "")) 0 st.max_frames
          err := st.err ++ openWarning fs (argv.getD 1 "") })
      ∧ countLine axesBeginLine (st.out ++ headerText ++ axesDefinition
            ++ frameBlocks env st (blobOf fs (argv.getD 1 "")) 0 st.max_frames)
          = 1 + st.max_frames * countLine axesBeginLine (blobOf fs (argv.getD 1 "")) := by
  refine ⟨main_run env fs fuel argv st hargc hopts (check_opts_max_frames env argv st hopts).2
    hfuel hfile, ?_⟩
  obtain ⟨cs, hout⟩ := check_opts_out env argv st hopts
  have hax : st.axis ≠ '\n' := by
    rcases check_opts_axis env argv st hopts with h | h | h <;> rw [h] <;> decide
  have hc1 : LineComplete st.out := by
    rw [hout]
    exact lineComplete_invalidOptionLines cs
  have hc2 : LineComplete (st.out ++ headerText) :=
    lineComplete_append _ _ hc1 lineComplete_headerText
  have hc3 : LineComplete (st.out ++ headerText ++ axesDefinition) :=
    lineComplete_append _ _ hc2 lineComplete_axesDefinition
  rw [countLine_append _ _ _ hc3, countLine_append _ _ _ hc2, countLine_append _ _ _ hc1,
    countLine_axesBegin_frameBlocks env st _ 0 _ hfmt hax (lineComplete_blobOf fs _), hout,
    countLine_axesBegin_invalidOptionLines cs]
  have h1 : countLine axesBeginLine headerText = 0 := by decide
  have h2 : countLine axesBeginLine axesDefinition = 1 := by decide
  rw [h1, h2]

/-- C7 (amended), witness: with `-a` and three frames around a blob that holds
no such line, `ObjectBegin "Axes"` occurs once. -/
theorem C7_axes_definition_once_witness :
    countLine axesBeginLine
        (("" : String) ++ headerText ++ axesDefinition
          ++ frameBlocks decimalEnv
              { State.init decimalEnv with render_axes := true, max_frames := 3 }
              (blobOf (oneFile "Cube") "in.rd") 0 3)
      = 1 + 3 * countLine axesBeginLine (blobOf (oneFile "Cube") "in.rd") :=
  (C7_axes_definition_once decimalEnv (oneFile "Cube") 5
    ["turntable", "in.rd", "-a", "-f", "3"]
    { State.init decimalEnv with render_axes := true, max_frames := 3 }
    (by decide) (by rfl) (by decide) (by intro c h; cases h; decide)
    decimalText_no_newline).2

/-- C8, counterexample: the file holding `a` and a newline yields a blob with
two newlines, one more character than the file has. -/
theorem C8_blob_counterexample :
    poly_from_file (oneFile "a\n") 3 "in.rd" (State.init decimalEnv)
        = some ("a\n\n", State.init decimalEnv)
      ∧ "a\n\n" ≠ "a\n" :=
  ⟨by rfl, by decide⟩

/-- C8 (amended): for a file that opens, with contents `s`, the blob returned
by `poly_from_file` is `s` followed by one newline; the contents themselves
come through unchanged, and nothing is written to either stream. -/
theorem C8_blob {F : Type} (fs : String → Option String) (fuel : Nat) (path s : String)
    (st : State F) (hopen : fs path = some s) (hfuel : s.length < fuel) :
    poly_from_file fs fuel path st = some (s ++ "\n", st) := by
  have h := poly_from_file_spec fs fuel path st
    (by intro c hc; rw [hopen] at hc; cases hc; exact hfuel)
  rw [h]
  unfold blobOf openWarning
  rw [hopen]
  simp only [String.append_empty]

/-- C8 (amended), witness: a two-line file without a final newline. -/
theorem C8_blob_witness :
    oneFile "PolySet\n1 2 3" "in.rd" = some "PolySet\n1 2 3" ∧ "PolySet\n1 2 3".length < 20
      ∧ poly_from_file (oneFile "PolySet\n1 2 3") 20 "in.rd" (State.init decimalEnv)
          = some ("PolySet\n1 2 3\n", State.init decimalEnv) :=
  ⟨by rfl, by decide,
    (C8_blob (oneFile "PolySet\n1 2 3") 20 "in.rd" "PolySet\n1 2 3" (State.init decimalEnv)
      (by rfl) (by decide)).trans (by rfl)⟩

/-- C9: in every run that reaches the animation loop, the frame block written
for the counter value `i` carries, between its head and the blob, the
directive `Rotate "<axis>" <angle>` whose axis is the configured one and
whose angle is the text of the single product of the velocity and `i`; and
`i` is the absolute index of the block as long as it fits an `int`. -/
theorem C9_rotate_angle_is_product {F : Type} (env : Env F) (fs : String → Option String)
    (fuel : Nat) (argv : List String) (st : State F)
    (hargc : 2 ≤ argv.length)
    (hopts : check_opts env argv (State.init env) = .returned st)
    (hfuel : st.max_frames < fuel)
    (hfile : ∀ c, fs (argv.getD 1 "") = some c → c.length < fuel) :
    main env fs fuel argv =
        some (.exited 0 { st with
          out := st.out ++ headerText ++ axesDefinition
            ++ concat ((List.range' 0 st.max_frames).map (fun (k : Nat) =>
                frameHead st (toInt32 (k : Int))
                  ++ rotateDirective st.axis
                      (env.fmt (env.mul st.velocity (env.ofInt (toInt32 (k : Int)))))
                  ++ blobOf fs (argv.getD 1 "") ++ "WorldEnd\n" ++ "FrameEnd\n"))
          err := st.err ++ openWarning fs (argv.getD 1 "") })
      ∧ ∀ k : Nat, (k : Int) ≤ INT_MAX → toInt32 (k : Int) = (k : Int) := by
  refine ⟨?_, fun k hk => toInt32_small k hk⟩
  rw [main_run env fs fuel argv st hargc hopts (check_opts_max_frames env argv st hopts).2
    hfuel hfile]
  unfold frameBlocks
  simp only [frameBlock_eq_head]

/-- C9, witness: `-f 2 -r y -v 1.5` gives the directives `Rotate "Y" 0` and
`Rotate "Y" 1.5`. -/
theorem C9_rotate_angle_is_product_witness :
    main decimalEnv (oneFile "") 3 ["turntable", "in.rd", "-f", "2", "-r", "y", "-v", "1.5"] =
      some (.exited 0
        { use_axis_lights := false, render_axes := false, axis := 'Y', velocity := 1500,
          max_frames := 2, err := "",
          out := concat
            [ headerText, axesDefinition,
              "FrameBegin 0\nWorldBegin\nAmbientLight 1 1 1 1\nKa 0.5\nKd 1\n",
              "Rotate \"Y\" 0\n", "\n", "WorldEnd\nFrameEnd\n",
              "FrameBegin 1\nWorldBegin\nAmbientLight 1 1 1 1\nKa 0.5\nKd 1\n",
              "Rotate \"Y\" 1.5\n", "\n", "WorldEnd\nFrameEnd\n" ] }) :=
  (C9_rotate_angle_is_product decimalEnv (oneFile "") 3
    ["turntable", "in.rd", "-f", "2", "-r", "y", "-v", "1.5"]
    { use_axis_lights := false, render_axes := false, axis := 'Y', velocity := 1500,
      max_frames := 2, out := "", err := "" }
    (by decide) (by rfl) (by decide) (by intro c h; cases h; decide)).1.trans (by rfl)

/-- C10: for every configuration, blob and counter value `i`, the loop body
writes exactly the sequence `FrameBegin i`, `WorldBegin`, the lighting
lines, `Ka 0.5`, `Kd 1`, the axes reference if `render_axes`, the rotation
directive, the blob unchanged, `WorldEnd`, `FrameEnd`, and changes nothing
else; and the loop writes one such block after the other, all with the same
blob. -/
theorem C10_frame_block_sequence {F : Type} (env : Env F) (poly : String) (st : State F)
    (fuel : Nat) (hmax : st.max_frames < 4294967296) (hfuel : st.max_frames < fuel) :
    (∀ i : Int, frame_body env poly i st =
        { st with
          out := st.out ++ concat
            [ "FrameBegin " ++ toString i ++ "\n",
              "WorldBegin\n",
              lightingLines st.use_axis_lights,
              "Ka 0.5\n",
              "Kd 1\n",
              axesReference st.render_axes,
              rotateDirective st.axis (env.fmt (env.mul st.velocity (env.ofInt i))),
              poly,
              "WorldEnd\n",
              "FrameEnd\n" ] })
      ∧ frame_loop env poly fuel 0 st =
          some { st with
            out := st.out ++ concat ((List.range' 0 st.max_frames).map (fun (k : Nat) =>
              concat
                [ "FrameBegin " ++ toString (toInt32 (k : Int)) ++ "\n",
                  "WorldBegin\n",
                  lightingLines st.use_axis_lights,
                  "Ka 0.5\n",
                  "Kd 1\n",
                  axesReference st.render_axes,
                  rotateDirective st.axis
                    (env.fmt (env.mul st.velocity (env.ofInt (toInt32 (k : Int))))),
                  poly,
                  "WorldEnd\n",
                  "FrameEnd\n" ])) } := by
  constructor
  · intro i
    exact frame_body_spec env poly i st
  · have h := frame_loop_run env poly st.max_frames 0 st fuel (by omega) (by omega) hfuel
    rw [toInt32_zero] at h
    exact h

/-- C10, witness: two frames with axis lights and the axes reference around a
one-line blob. -/
theorem C10_frame_block_sequence_witness :
    frame_loop decimalEnv "Cube\n" 3 0
        { use_axis_lights := true, render_axes := true, axis := 'X', velocity := 500,
          max_frames := 2, out := "", err := "" } =
      some
        { use_axis_lights := true, render_axes := true, axis := 'X', velocity := 500,
          max_frames := 2, err := "",
          out := concat
            [ "FrameBegin 0\n", "WorldBegin\n",
              "FarLight -1 0 0 1 0 0 0.5\n", "FarLight 0 -1 0 0 1 0 0.5\n",
              "FarLight 0 0 -1 0 0 1 0.5\n", "AmbientLight 1 1 1 0.8\n",
              "Ka 0.5\n", "Kd 1\n", "ObjectInstance \"Axes\"\n", "Rotate \"X\" 0\n",
              "Cube\n", "WorldEnd\n", "FrameEnd\n",
              "FrameBegin 1\n", "WorldBegin\n",
              "FarLight -1 0 0 1 0 0 0.5\n", "FarLight 0 -1 0 0 1 0 0.5\n",
              "FarLight 0 0 -1 0 0 1 0.5\n", "AmbientLight 1 1 1 0.8\n",
              "Ka 0.5\n", "Kd 1\n", "ObjectInstance \"Axes\"\n", "Rotate \"X\" 0.5\n",
              "Cube\n", "WorldEnd\n", "FrameEnd\n" ] } :=
  (C10_frame_block_sequence decimalEnv "Cube\n"
    { use_axis_lights := true, render_axes := true, axis := 'X', velocity := 500,
      max_frames := 2, out := "", err := "" } 3 (by decide) (by decide)).2.trans (by rfl)

/-- C11, runs at the failing input: `-x` is an unknown flag, put in after the
file name and so not directly after `-f`, `-r` or `-v`.  With it the run ends
as without it, in the same configuration, but standard output opens with the
line `Invalid option "x"` and so is not the same text. -/
theorem C11_unknown_flag_changes_output :
    isUnknownFlag "-x" = true ∧ takesValue "in.rd" = false
      ∧ main decimalEnv (oneFile "Cube") 2 ["turntable", "in.rd", "-f", "1"] =
        some (.exited 0
          { State.init decimalEnv with
            max_frames := 1
            out := concat
              [ headerText, axesDefinition,
                "FrameBegin 0\nWorldBegin\nAmbientLight 1 1 1 1\nKa 0.5\nKd 1\n",
                "Rotate \"Z\" 0\n", "Cube\n", "WorldEnd\nFrameEnd\n" ] })
      ∧ main decimalEnv (oneFile "Cube") 2 ["turntable", "in.rd", "-x", "-f", "1"] =
        some (.exited 0
          { State.init decimalEnv with
            max_frames := 1
            out := concat
              [ "Invalid option \"x\"\n", headerText, axesDefinition,
                "FrameBegin 0\nWorldBegin\nAmbientLight 1 1 1 1\nKa 0.5\nKd 1\n",
                "Rotate \"Z\" 0\n", "Cube\n", "WorldEnd\nFrameEnd\n" ] })
      ∧ main decimalEnv (oneFile "Cube") 2 ["turntable", "in.rd", "-x", "-f", "1"]
          ≠ main decimalEnv (oneFile "Cube") 2 ["turntable", "in.rd", "-f", "1"] := by
  have h1 : main decimalEnv (oneFile "Cube") 2 ["turntable", "in.rd", "-f", "1"] =
      some (.exited 0
        { State.init decimalEnv with
          max_frames := 1
          out := concat
            [ headerText, axesDefinition,
              "FrameBegin 0\nWorldBegin\nAmbientLight 1 1 1 1\nKa 0.5\nKd 1\n",
              "Rotate \"Z\" 0\n", "Cube\n", "WorldEnd\nFrameEnd\n" ] }) := by rfl
  have h2 : main decimalEnv (oneFile "Cube") 2 ["turntable", "in.rd", "-x", "-f", "1"] =
      some (.exited 0
        { State.init decimalEnv with
          max_frames := 1
          out := concat
            [ "Invalid option \"x\"\n", headerText, axesDefinition,
              "FrameBegin 0\nWorldBegin\nAmbientLight 1 1 1 1\nKa 0.5\nKd 1\n",
              "Rotate \"Z\" 0\n", "Cube\n", "WorldEnd\nFrameEnd\n" ] }) := by rfl
  refine ⟨by decide, by decide, h1, h2, ?_⟩
  rw [h1, h2]
  intro e
  have e2 := congrArg (fun o => (o.map (fun r => r.state.out.length))) e
  revert e2
  decide

/-- C12: in every run that reaches the animation loop, standard output is the
"Invalid option" lines of `check_opts`, then the six header lines in the
order of `header`, then the axes definition and the frame blocks.  The
header text is a constant, so it is the same for every blob, and each of its
six lines occurs on standard output once outside the blob: once, plus its
occurrences in the blob for each of the frame blocks.  The text of a
formatted angle is assumed to hold no newline. -/
theorem C12_header_once {F : Type} (env : Env F) (fs : String → Option String)
    (fuel : Nat) (argv : List String) (st : State F)
    (hargc : 2 ≤ argv.length)
    (hopts : check_opts env argv (State.init env) = .returned st)
    (hfuel : st.max_frames < fuel)
    (hfile : ∀ c, fs (argv.getD 1 "") = some c → c.length < fuel)
    (hfmt : ∀ x, '\n' ∉ (env.fmt x).data) :
    main env fs fuel argv =
        some (.exited 0 { st with
          out := st.out ++ headerText ++ axesDefinition
            ++ frameBlocks env st (blobOf fs (argv.getD 1 "")) 0 st.max_frames
          err := st.err ++ openWarning fs (argv.getD 1 "") })
      ∧ (∃ cs, st.out = invalidOptionLines cs)
      ∧ textLines headerText = header
      ∧ ∀ h ∈ header,
          countLine h (st.out ++ headerText ++ axesDefinition
              ++ frameBlocks env st (blobOf fs (argv.getD 1 "")) 0 st.max_frames)
            = 1 + st.max_frames * countLine h (blobOf fs (argv.getD 1 "")) := by
  obtain ⟨cs, hout⟩ := check_opts_out env argv st hopts
  have hax : st.axis ≠ '\n' := by
    rcases check_opts_axis env argv st hopts with h | h | h <;> rw [h] <;> decide
  refine ⟨main_run env fs fuel argv st hargc hopts (check_opts_max_frames env argv st hopts).2
    hfuel hfile, ⟨cs, hout⟩, by decide, ?_⟩
  intro h hh
  have hfix : ∀ a b : Bool, List.count h (fixedFrameLines a b) = 0 := by
    intro a b
    simp only [header, List.mem_cons, List.mem_singleton, List.not_mem_nil, or_false] at hh
    rcases hh with rfl | rfl | rfl | rfl | rfl | rfl <;> cases a <;> cases b <;> decide
  have hcount : countLine h headerText = 1 ∧ countLine h axesDefinition = 0
      ∧ lineStartsWith "Fr" h = false ∧ lineStartsWith "R" h = false
      ∧ lineStartsWith "I" h = false ∧ "\"" ≠ h := by
    simp only [header, List.mem_cons, List.mem_singleton, List.not_mem_nil, or_false] at hh
    rcases hh with rfl | rfl | rfl | rfl | rfl | rfl <;> decide
  obtain ⟨hc1, hc2, hFr, hR, hI, hq⟩ := hcount
  rw [countLine_output_plain h env st _ _ cs hfmt hax (lineComplete_blobOf fs _) hout
    hFr hR hI hq, hc1, hc2, hfix, Nat.zero_add, Nat.add_zero]

/-- C12, witness: two frames around a one-line blob; the line `Format 640 480`
occurs once. -/
theorem C12_header_once_witness :
    countLine "Format 640 480"
        (("" : String) ++ headerText ++ axesDefinition
          ++ frameBlocks decimalEnv { State.init decimalEnv with max_frames := 2 }
              (blobOf (oneFile "Cube") "in.rd") 0 2)
      = 1 + 2 * countLine "Format 640 480" (blobOf (oneFile "Cube") "in.rd") :=
  (C12_header_once decimalEnv (oneFile "Cube") 5 ["turntable", "in.rd", "-f", "2"]
    { State.init decimalEnv with max_frames := 2 }
    (by decide) (by rfl) (by decide) (by intro c h; cases h; decide)
    decimalText_no_newline).2.2.2 "Format 640 480" (by decide)

/-- C13: when the path does not open, `poly_from_file` returns the empty
string, whatever the fuel, and leaves one warning on the error stream; the
run goes on and writes the preamble and every frame block as it does for any
blob, here with nothing between the rotation directive and `WorldEnd`. -/
theorem C13_unreadable_file {F : Type} (env : Env F) (fs : String → Option String)
    (fuel : Nat) (argv : List String) (st : State F)
    (hargc : 2 ≤ argv.length)
    (hopts : check_opts env argv (State.init env) = .returned st)
    (hfuel : st.max_frames < fuel)
    (hclosed : fs (argv.getD 1 "") = none) :
    (∀ f : Nat, poly_from_file fs f (argv.getD 1 "") st =
        some ("", { st with
          err := st.err ++ ("Failed to open polyfile at " ++ argv.getD 1 "" ++ "!" ++ "\n") }))
      ∧ main env fs fuel argv =
        some (.exited 0 { st with
          out := st.out ++ headerText ++ axesDefinition
            ++ frameBlocks env st "" 0 st.max_frames
          err := st.err ++ ("Failed to open polyfile at " ++ argv.getD 1 "" ++ "!" ++ "\n") })
      ∧ ∀ i : Int, frameBlock env st "" i =
          frameHead st i
            ++ rotateDirective st.axis (env.fmt (env.mul st.velocity (env.ofInt i)))
            ++ "WorldEnd\n" ++ "FrameEnd\n" := by
  refine ⟨?_, ?_, ?_⟩
  · intro f
    unfold poly_from_file
    rw [hclosed]
    rfl
  · rw [main_run env fs fuel argv st hargc hopts (check_opts_max_frames env argv st hopts).2
      hfuel (by intro c hc; rw [hclosed] at hc; cases hc)]
    unfold blobOf openWarning
    rw [hclosed]
  · intro i
    rw [frameBlock_eq_head, String.append_empty]

/-- C13, witness: the path `missing.rd` does not open; two frames follow the
preamble, each without a blob. -/
theorem C13_unreadable_file_witness :
    main decimalEnv (oneFile "Cube") 3 ["turntable", "missing.rd", "-f", "2"] =
      some (.exited 0
        { State.init decimalEnv with
          max_frames := 2
          err := "Failed to open polyfile at missing.rd!\n"
          out := concat
            [ headerText, axesDefinition,
              "FrameBegin 0\nWorldBegin\nAmbientLight 1 1 1 1\nKa 0.5\nKd 1\n",
              "Rotate \"Z\" 0\n", "WorldEnd\nFrameEnd\n",
              "FrameBegin 1\nWorldBegin\nAmbientLight 1 1 1 1\nKa 0.5\nKd 1\n",
              "Rotate \"Z\" 0.1\n", "WorldEnd\nFrameEnd\n" ] }) :=
  (C13_unreadable_file decimalEnv (oneFile "Cube") 3 ["turntable", "missing.rd", "-f", "2"]
    { State.init decimalEnv with max_frames := 2 }
    (by decide) (by rfl) (by decide) (by rfl)).2.1.trans (by rfl)

/-- C15: whenever `check_opts` returns, the rotation axis is one of `X`, `Y`,
`Z` and the frame limit, set by `-f` or not, is an integer from `1` to
`UINT_MAX`. -/
theorem C15_configuration_invariant {F : Type} (env : Env F) (argv : List String)
    (st : State F) (hopts : check_opts env argv (State.init env) = .returned st) :
    (st.axis = 'X' ∨ st.axis = 'Y' ∨ st.axis = 'Z')
      ∧ 1 ≤ st.max_frames ∧ st.max_frames ≤ UINT_MAX := by
  refine ⟨check_opts_axis env argv st hopts, (check_opts_max_frames env argv st hopts).1, ?_⟩
  have h := (check_opts_max_frames env argv st hopts).2
  unfold UINT_MAX
  omega

/-- C15, witness: the arguments `turntable in.rd -r x -f 7`. -/
theorem C15_configuration_invariant_witness :
    check_opts decimalEnv ["turntable", "in.rd", "-r", "x", "-f", "7"] (State.init decimalEnv)
        = .returned { State.init decimalEnv with axis := 'X', max_frames := 7 }
      ∧ (('X' : Char) = 'X' ∨ ('X' : Char) = 'Y' ∨ ('X' : Char) = 'Z')
      ∧ 1 ≤ 7 ∧ 7 ≤ UINT_MAX :=
  ⟨by rfl,
    C15_configuration_invariant decimalEnv ["turntable", "in.rd", "-r", "x", "-f", "7"]
      { State.init decimalEnv with axis := 'X', max_frames := 7 } (by rfl)⟩

/-- C16: in every run that reaches the animation loop, standard output ends
with one frame block per counter value, each the text that the loop body
writes.  In the text that the loop body writes for any counter value,
leaving the lines of the blob aside: with `use_axis_lights` the lines that
begin with `FarLight` are the three lines for the directions
`-1 0 0 -> 1 0 0`, `0 -1 0 -> 0 1 0`, `0 0 -1 -> 0 0 1` at intensity `0.5`,
and the one line that begins with `AmbientLight` is at intensity `0.8`;
without it there is no `FarLight` line and the one `AmbientLight` line is at
intensity `1`.  The text of a formatted angle is assumed to hold no newline;
the blob is empty or ends with a newline, as every blob of `poly_from_file`
does. -/
theorem C16_lighting_lines {F : Type} (env : Env F) (fs : String → Option String)
    (fuel : Nat) (argv : List String) (st : State F)
    (hargc : 2 ≤ argv.length)
    (hopts : check_opts env argv (State.init env) = .returned st)
    (hfuel : st.max_frames < fuel)
    (hfile : ∀ c, fs (argv.getD 1 "") = some c → c.length < fuel)
    (hfmt : ∀ x, '\n' ∉ (env.fmt x).data) :
    main env fs fuel argv =
        some (.exited 0 { st with
          out := st.out ++ headerText ++ axesDefinition
            ++ concat ((List.range' 0 st.max_frames).map (fun (k : Nat) =>
                (frame_body env (blobOf fs (argv.getD 1 "")) (toInt32 (k : Int))
                  { st with out := "" }).out))
          err := st.err ++ openWarning fs (argv.getD 1 "") })
      ∧ ∀ (poly : String) (i : Int), LineComplete poly →
          linesStarting "FarLight" (frame_body env poly i { st with out := "" }).out =
              (if st.use_axis_lights then
                ["FarLight -1 0 0 1 0 0 0.5", "FarLight 0 -1 0 0 1 0 0.5",
                  "FarLight 0 0 -1 0 0 1 0.5"]
              else []) ++ linesStarting "FarLight" poly
            ∧ linesStarting "AmbientLight" (frame_body env poly i { st with out := "" }).out =
              [if st.use_axis_lights then "AmbientLight 1 1 1 0.8" else "AmbientLight 1 1 1 1"]
                ++ linesStarting "AmbientLight" poly := by
  refine ⟨main_run_bodies env fs fuel argv st hargc hopts hfuel hfile, ?_⟩
  intro poly i hpoly
  have hax : st.axis ≠ '\n' := by
    rcases check_opts_axis env argv st hopts with h | h | h <;> rw [h] <;> decide
  have e1 : ∀ a b : Bool,
      List.filter (lineStartsWith "FarLight")
        (["WorldBegin"] ++ (textLines (lightingLines a) ++ (["Ka 0.5"]
          ++ (["Kd 1"] ++ textLines (axesReference b))))) =
        (if a then
          ["FarLight -1 0 0 1 0 0 0.5", "FarLight 0 -1 0 0 1 0 0.5", "FarLight 0 0 -1 0 0 1 0.5"]
        else []) := by
    intro a b
    cases a <;> cases b <;> decide
  have e2 : ∀ a b : Bool,
      List.filter (lineStartsWith "AmbientLight")
        (["WorldBegin"] ++ (textLines (lightingLines a) ++ (["Ka 0.5"]
          ++ (["Kd 1"] ++ textLines (axesReference b))))) =
        [if a then "AmbientLight 1 1 1 0.8" else "AmbientLight 1 1 1 1"] := by
    intro a b
    cases a <;> cases b <;> decide
  have e3 : List.filter (lineStartsWith "FarLight") (["WorldEnd"] ++ ["FrameEnd"]) = [] := by
    decide
  have e4 : List.filter (lineStartsWith "AmbientLight") (["WorldEnd"] ++ ["FrameEnd"]) = [] := by
    decide
  rw [frame_body_text]
  unfold linesStarting
  constructor
  · rw [filter_frameBlock _ env st poly i hfmt hax hpoly rfl rfl, e1, e3, List.append_nil]
  · rw [filter_frameBlock _ env st poly i hfmt hax hpoly rfl rfl, e2, e4, List.append_nil]

/-- C16, witness: with `-l`, the loop body writes the three `FarLight` lines
and the `AmbientLight` line at `0.8` around a one-line blob. -/
theorem C16_lighting_lines_witness :
    linesStarting "FarLight"
        (frame_body decimalEnv "Cube\n" 0
          { State.init decimalEnv with use_axis_lights := true, max_frames := 1 }).out =
        ["FarLight -1 0 0 1 0 0 0.5", "FarLight 0 -1 0 0 1 0 0.5", "FarLight 0 0 -1 0 0 1 0.5"]
      ∧ linesStarting "AmbientLight"
        (frame_body decimalEnv "Cube\n" 0
          { State.init decimalEnv with use_axis_lights := true, max_frames := 1 }).out =
        ["AmbientLight 1 1 1 0.8"] :=
  have h := (C16_lighting_lines decimalEnv (oneFile "Cube") 5
    ["turntable", "in.rd", "-l", "-f", "1"]
    { State.init decimalEnv with use_axis_lights := true, max_frames := 1 }
    (by decide) (by rfl) (by decide) (by intro c h; cases h; decide)
    decimalText_no_newline).2 "Cube\n" 0 (Or.inr ⟨"Cube", by decide⟩)
  ⟨h.1.trans (by decide), h.2.trans (by decide)⟩

/-- C17: in every run that reaches the animation loop, standard output ends
with one frame block per counter value, each the text that the loop body
writes.  In the text that the loop body writes for any counter value,
leaving the lines of the blob aside, the line `ObjectInstance "Axes"` occurs
once when `render_axes` is set and not at all when it is not.  The text of a
formatted angle is assumed to hold no newline; the blob is empty or ends with
a newline, as every blob of `poly_from_file` does. -/
theorem C17_axes_reference {F : Type} (env : Env F) (fs : String → Option String)
    (fuel : Nat) (argv : List String) (st : State F)
    (hargc : 2 ≤ argv.length)
    (hopts : check_opts env argv (State.init env) = .returned st)
    (hfuel : st.max_frames < fuel)
    (hfile : ∀ c, fs (argv.getD 1 "") = some c → c.length < fuel)
    (hfmt : ∀ x, '\n' ∉ (env.fmt x).data) :
    main env fs fuel argv =
        some (.exited 0 { st with
          out := st.out ++ headerText ++ axesDefinition
            ++ concat ((List.range' 0 st.max_frames).map (fun (k : Nat) =>
                (frame_body env (blobOf fs (argv.getD 1 "")) (toInt32 (k : Int))
                  { st with out := "" }).out))
          err := st.err ++ openWarning fs (argv.getD 1 "") })
      ∧ ∀ (poly : String) (i : Int), LineComplete poly →
          countLine "ObjectInstance \"Axes\"" (frame_body env poly i { st with out := "" }).out =
            (if st.render_axes then 1 else 0) + countLine "ObjectInstance \"Axes\"" poly := by
  refine ⟨main_run_bodies env fs fuel argv st hargc hopts hfuel hfile, ?_⟩
  intro poly i hpoly
  have hax : st.axis ≠ '\n' := by
    rcases check_opts_axis env argv st hopts with h | h | h <;> rw [h] <;> decide
  have hfix : ∀ a b : Bool,
      List.count "ObjectInstance \"Axes\"" (fixedFrameLines a b) = if b then 1 else 0 := by
    intro a b
    cases a <;> cases b <;> decide
  rw [frame_body_text, countLine_frameBlock _ env st poly i hfmt hax hpoly
    (frameBegin_ne _ (by rfl) i) (rotate_ne _ (by rfl) _ _), hfix]

/-- C17, witness: with `-a` the loop body writes the reference once, without
it not at all. -/
theorem C17_axes_reference_witness :
    countLine "ObjectInstance \"Axes\""
        (frame_body decimalEnv "Cube\n" 3
          { State.init decimalEnv with render_axes := true, max_frames := 4 }).out = 1
      ∧ countLine "ObjectInstance \"Axes\""
        (frame_body decimalEnv "Cube\n" 3
          { State.init decimalEnv with max_frames := 4 }).out = 0 :=
  ⟨((C17_axes_reference decimalEnv (oneFile "Cube") 5 ["turntable", "in.rd", "-a", "-f", "4"]
      { State.init decimalEnv with render_axes := true, max_frames := 4 }
      (by decide) (by rfl) (by decide) (by intro c h; cases h; decide)
      decimalText_no_newline).2 "Cube\n" 3 (Or.inr ⟨"Cube", by decide⟩)).trans (by decide),
   ((C17_axes_reference decimalEnv (oneFile "Cube") 5 ["turntable", "in.rd", "-f", "4"]
      { State.init decimalEnv with max_frames := 4 }
      (by decide) (by rfl) (by decide) (by intro c h; cases h; decide)
      decimalText_no_newline).2 "Cube\n" 3 (Or.inr ⟨"Cube", by decide⟩)).trans (by decide)⟩

/-- C18: the loop of `check_opts` goes on with the very next token after every
pass that does not exit, also when that token has just been read as the
value of `-f`, `-r` or `-v`.  So on `prog file -v -a` the velocity is what
`atof` makes of `-a` and `render_axes` is set, and on `prog file -v -2.0` the
velocity is what `atof` makes of `-2.0` and the token is reported as the
invalid option `2`. -/
theorem C18_value_token_is_scanned {F : Type} (env : Env F) (prog file : String)
    (hp : charAt prog 0 ≠ '-') (hf : charAt file 0 ≠ '-') :
    (∀ (token : String) (rest : List String) (st st1 : State F),
        check_opts_body env token rest st = .returned st1 →
          check_opts_from env (token :: rest) st = check_opts_from env rest st1)
      ∧ check_opts env [prog, file, "-v", "-a"] (State.init env) =
          .returned { State.init env with velocity := env.atof "-a", render_axes := true }
      ∧ check_opts env [prog, file, "-v", "-2.0"] (State.init env) =
          .returned { State.init env with
            velocity := env.atof "-2.0"
            out := "Invalid option \"2\"\n" } := by
  refine ⟨fun token rest st st1 h => check_opts_from_step env token rest st st1 h, ?_, ?_⟩
  · unfold check_opts
    rw [check_opts_from_plain env prog _ _ hp, check_opts_from_plain env file _ _ hf]
    rfl
  · unfold check_opts
    rw [check_opts_from_plain env prog _ _ hp, check_opts_from_plain env file _ _ hf]
    rfl

/-- C18, witness: in the decimal environment `atof` makes `0` of `-a` and `-2`
(here `-2000` thousandths) of `-2.0`. -/
theorem C18_value_token_is_scanned_witness :
    check_opts decimalEnv ["turntable", "in.rd", "-v", "-a"] (State.init decimalEnv) =
        .returned { State.init decimalEnv with velocity := 0, render_axes := true }
      ∧ check_opts decimalEnv ["turntable", "in.rd", "-v", "-2.0"] (State.init decimalEnv) =
        .returned { State.init decimalEnv with
          velocity := -2000
          out := "Invalid option \"2\"\n" } :=
  have h := C18_value_token_is_scanned decimalEnv "turntable" "in.rd" (by decide) (by decide)
  ⟨h.2.1.trans (by rfl), h.2.2.trans (by rfl)⟩

/-- C19: for a file that opens, with contents `s`, `poly_from_file` returns
the characters of `s` followed by one newline, one character more than the
file has; an empty file gives a lone newline and a file that ends in a
newline gives a blob that ends in two. -/
theorem C19_blob_has_extra_newline {F : Type} (fs : String → Option String) (fuel : Nat)
    (path s : String) (st : State F) (hopen : fs path = some s) (hfuel : s.length < fuel) :
    ∃ blob : String, poly_from_file fs fuel path st = some (blob, st)
      ∧ blob.data = s.data ++ ['\n']
      ∧ blob.length = s.length + 1
      ∧ (s = "" → blob = "\n")
      ∧ (∀ a : String, s = a ++ "\n" → blob = a ++ "\n" ++ "\n") := by
  refine ⟨s ++ "\n", ?_, ?_, ?_, ?_, ?_⟩
  · have h := poly_from_file_spec fs fuel path st
      (by intro c hc; rw [hopen] at hc; cases hc; exact hfuel)
    rw [h]
    unfold blobOf openWarning
    rw [hopen]
    simp only [String.append_empty]
  · rw [String.data_append]
  · rw [String.length_append]
    rfl
  · intro hs
    rw [hs]
    rfl
  · intro a ha
    rw [ha]

/-- C19, witness: the empty file gives the blob of one newline. -/
theorem C19_blob_has_extra_newline_witness :
    oneFile "" "in.rd" = some "" ∧ "".length < 1
      ∧ poly_from_file (oneFile "") 1 "in.rd" (State.init decimalEnv)
          = some ("\n", State.init decimalEnv) := by
  obtain ⟨blob, h1, _, _, h4, _⟩ :=
    C19_blob_has_extra_newline (oneFile "") 1 "in.rd" "" (State.init decimalEnv)
      (by rfl) (by decide)
  refine ⟨by rfl, by decide, ?_⟩
  rw [h1, h4 rfl]

/-- C20: for a token `t` after `-f` that `atoi` reads as a negative `int` `n`,
the pass of the loop over `-f` does not exit: it sets the frame limit to
`n mod 2^32`, which is at least `1`, and `check_opts` on `prog file -f t`
returns with that limit.  In particular `-f -1` leaves the limit at
`UINT_MAX`, the value it has when no `-f` is given. -/
theorem C20_negative_frame_limit {F : Type} (env : Env F) (prog file t : String)
    (hp : charAt prog 0 ≠ '-') (hf : charAt file 0 ≠ '-')
    (h0 : INT_MIN ≤ atoi_value t) (h1 : atoi_value t < 0) :
    (∀ (tl : List String) (st : State F),
        check_opts_body env "-f" (t :: tl) st =
          .returned { st with max_frames := (atoi_value t % 4294967296).toNat })
      ∧ 1 ≤ (atoi_value t % 4294967296).toNat
      ∧ (∃ st, check_opts env [prog, file, "-f", t] (State.init env) = .returned st
          ∧ st.max_frames = (atoi_value t % 4294967296).toNat)
      ∧ check_opts env [prog, file, "-f", "-1"] (State.init env) =
          .returned { State.init env with max_frames := UINT_MAX, out := "Invalid option \"1\"\n" }
      ∧ (State.init env).max_frames = UINT_MAX := by
  have hat := atoi_in_range env t h0 (by unfold INT_MAX; omega)
  have hu := toUnsigned_negative (atoi_value t) h0 h1
  have hbody : ∀ (tl : List String) (st : State F),
      check_opts_body env "-f" (t :: tl) st =
        .returned { st with max_frames := (atoi_value t % 4294967296).toNat } := by
    intro tl st
    rw [check_opts_body_f, hat, if_neg (by omega)]
    rfl
  refine ⟨hbody, hu.2, ?_, ?_, rfl⟩
  · have hnf : ¬(charAt t 0 = '-'
        ∧ (charAt t 1 = 'f' ∨ charAt t 1 = 'r' ∨ charAt t 1 = 'v')) := by
      rintro ⟨hd, hc⟩
      have hdig := negative_token_digit t h1 hd
      rcases hc with hc | hc | hc <;> rw [hc] at hdig <;> exact absurd hdig (by decide)
    obtain ⟨st2, hst2⟩ := check_opts_body_single env t
      { State.init env with max_frames := (atoi_value t % 4294967296).toNat } hnf
    have hno : ¬(charAt t 0 = '-' ∧ charAt t 1 = 'f') := fun hh => hnf ⟨hh.1, Or.inl hh.2⟩
    refine ⟨st2, ?_, ?_⟩
    · unfold check_opts
      rw [check_opts_from_plain env prog _ _ hp, check_opts_from_plain env file _ _ hf,
        check_opts_from_step env "-f" [t] _ _ (hbody [] _),
        check_opts_from_step env t [] _ _ hst2]
      rfl
    · exact check_opts_body_no_f env t [] _ st2 hno hst2
  · unfold check_opts
    rw [check_opts_from_plain env prog _ _ hp, check_opts_from_plain env file _ _ hf]
    rfl

/-- C20, witness: `-f -5` sets the frame limit to `2^32 - 5`. -/
theorem C20_negative_frame_limit_witness :
    check_opts decimalEnv ["turntable", "in.rd", "-f", "-5"] (State.init decimalEnv) =
        .returned { State.init decimalEnv with
          max_frames := 4294967291
          out := "Invalid option \"5\"\n" }
      ∧ 1 ≤ (atoi_value "-5" % 4294967296).toNat
      ∧ (atoi_value "-5" % 4294967296).toNat = 4294967291 :=
  have h := C20_negative_frame_limit decimalEnv "turntable" "in.rd" "-5" (by decide) (by decide)
    (by decide) (by decide)
  ⟨by rfl, h.2.1, by decide⟩

end Turntable
